import Mathlib

/-!
Shallow embedding of the simplebgc-api-rs codec and frame layer.

Byte streams are modelled as `List Nat` with each element standing for one
`u8` (values kept below 256 where the Rust type system guarantees it).
Machine arithmetic is `Nat`/`Int` with explicit `% 2^w` at the points where
the Rust code wraps.  Fallible readers return `Except RErr α × List Nat`,
threading the remaining input exactly as a Rust `&mut R` reader would:
the remaining stream is returned even when the read fails.  Fallible
writers at the codec layer return `Except RErr (List Nat)` — the only
failure there is validation, the byte sink itself being pure.  The frame
layer (`parser.rs`) instead threads an explicit, possibly failing sink,
because the source ignores the result of every sink write.
-/

namespace SimpleBGC

/-- Error kinds of the embedding: `eof` stands for `io::ErrorKind::UnexpectedEof`
raised by `byteorder` on short reads, `invalidData` for
`io::Error::new(ErrorKind::InvalidData, msg)`, and `framing`/`integrity` for the
two frame-decode error classes of spec §4.4/§7. -/
inductive RErr where
  | eof : RErr
  | invalidData : String → RErr
  | framing : String → RErr
  | integrity : String → RErr
deriving DecidableEq, Repr

instance instDecidableEqExcept {ε α : Type} [DecidableEq ε] [DecidableEq α] :
    DecidableEq (Except ε α) := fun a b =>
  match a, b with
  | .error e, .error f =>
    if h : e = f then isTrue (by rw [h])
    else isFalse (fun hc => h (by injection hc))
  | .error _, .ok _ => isFalse (fun hc => Except.noConfusion hc)
  | .ok _, .error _ => isFalse (fun hc => Except.noConfusion hc)
  | .ok x, .ok y =>
    if h : x = y then isTrue (by rw [h])
    else isFalse (fun hc => h (by injection hc))

/-- `reader.read_u8()`: take one byte off the stream, `UnexpectedEof` on empty. -/
def readU8 : List Nat → Except RErr Nat × List Nat
  | [] => (.error .eof, [])
  | b :: rest => (.ok b, rest)

/-- `reader.read_u16::<LittleEndian>()`: two bytes, little-endian. -/
def readU16LE : List Nat → Except RErr Nat × List Nat
  | b0 :: b1 :: rest => (.ok (b0 + 256 * b1), rest)
  | s => (.error .eof, s)

/-- `reader.read_u64::<LittleEndian>()`: eight bytes, little-endian. -/
def readU64LE : List Nat → Except RErr Nat × List Nat
  | b0 :: b1 :: b2 :: b3 :: b4 :: b5 :: b6 :: b7 :: rest =>
      (.ok (b0 + 256 * b1 + 256 ^ 2 * b2 + 256 ^ 3 * b3 + 256 ^ 4 * b4 +
            256 ^ 5 * b5 + 256 ^ 6 * b6 + 256 ^ 7 * b7), rest)
  | s => (.error .eof, s)

/-- Two's-complement reinterpretation of a `w`-bit unsigned value as signed. -/
def toSigned (w : Nat) (n : Nat) : Int :=
  if n < 2 ^ (w - 1) then (n : Int) else (n : Int) - 2 ^ w

/-- `reader.read_i8()`. -/
def readI8 (s : List Nat) : Except RErr Int × List Nat :=
  match readU8 s with
  | (.ok b, s') => (.ok (toSigned 8 b), s')
  | (.error e, s') => (.error e, s')

/-- `reader.read_i16::<LittleEndian>()`. -/
def readI16LE (s : List Nat) : Except RErr Int × List Nat :=
  match readU16LE s with
  | (.ok b, s') => (.ok (toSigned 16 b), s')
  | (.error e, s') => (.error e, s')

/-- Little-endian bytes of a `u16` value. -/
def bytesU16LE (v : Nat) : List Nat := [v % 256, v / 256 % 256]

/-- Little-endian bytes of a `u64` value. -/
def bytesU64LE (v : Nat) : List Nat :=
  [v % 256, v / 256 % 256, v / 256 ^ 2 % 256, v / 256 ^ 3 % 256,
   v / 256 ^ 4 % 256, v / 256 ^ 5 % 256, v / 256 ^ 6 % 256, v / 256 ^ 7 % 256]

/-- Two's-complement byte of an `i8` value. -/
def bytesI8 (v : Int) : List Nat := [(v % 256).toNat]

/-- Two's-complement little-endian bytes of an `i16` value. -/
def bytesI16LE (v : Int) : List Nat := bytesU16LE (v % 65536).toNat

-- Round-trip facts for the primitive byte codecs.

theorem readU8_append (b : Nat) (rest : List Nat) :
    readU8 (b :: rest) = (.ok b, rest) := rfl

theorem readU16LE_bytes (v : Nat) (hv : v < 65536) (rest : List Nat) :
    readU16LE (bytesU16LE v ++ rest) = (.ok v, rest) := by
  simp only [bytesU16LE, List.cons_append, List.nil_append, readU16LE]
  congr 1
  congr 1
  omega

theorem readU64LE_bytes (v : Nat) (hv : v < 2 ^ 64) (rest : List Nat) :
    readU64LE (bytesU64LE v ++ rest) = (.ok v, rest) := by
  simp only [bytesU64LE, List.cons_append, List.nil_append, readU64LE]
  congr 1
  congr 1
  have h2 : (256 : Nat) ^ 2 = 65536 := by norm_num
  have h3 : (256 : Nat) ^ 3 = 16777216 := by norm_num
  have h4 : (256 : Nat) ^ 4 = 4294967296 := by norm_num
  have h5 : (256 : Nat) ^ 5 = 1099511627776 := by norm_num
  have h6 : (256 : Nat) ^ 6 = 281474976710656 := by norm_num
  have h7 : (256 : Nat) ^ 7 = 72057594037927936 := by norm_num
  have h64 : (2 : Nat) ^ 64 = 18446744073709551616 := by norm_num
  rw [h2, h3, h4, h5, h6, h7]
  rw [h64] at hv
  omega

theorem readI8_bytes (v : Int) (hv : -128 ≤ v ∧ v < 128) (rest : List Nat) :
    readI8 (bytesI8 v ++ rest) = (.ok v, rest) := by
  simp only [bytesI8, List.cons_append, List.nil_append, readI8, readU8, toSigned]
  have h : ((v % 256).toNat : Int) = v % 256 := Int.toNat_of_nonneg (Int.emod_nonneg v (by norm_num))
  split
  · rename_i hlt
    congr 2
    omega
  · rename_i hge
    congr 2
    push_neg at hge
    omega

theorem readI16LE_bytes (v : Int) (hv : -32768 ≤ v ∧ v < 32768) (rest : List Nat) :
    readI16LE (bytesI16LE v ++ rest) = (.ok v, rest) := by
  simp only [bytesI16LE, readI16LE]
  rw [readU16LE_bytes (v % 65536).toNat (by omega) rest]
  simp only [toSigned]
  have h : (((v % 65536).toNat : Int)) = v % 65536 :=
    Int.toNat_of_nonneg (Int.emod_nonneg v (by norm_num))
  split
  · rename_i hlt
    congr 2
    omega
  · rename_i hge
    congr 2
    push_neg at hge
    omega

/-! ## Frame layer (`src/parser.rs`)

The source's `write_cmd` takes a `WriteBytesExt` sink and *discards* the
`io::Result` of every individual write, so the sink is modelled explicitly:
`fails n` tells whether the sink's `n`-th write operation fails, `written`
accumulates the bytes of the successful writes, and each write reports a
success flag that the translated code ignores, exactly as the Rust does.
`cmd.payload.len().try_into().unwrap()` panics when the payload is longer
than 255 bytes; the panic is modelled as the `none` outcome. -/

/-- `OutgoingCommand` (declared in the crate but absent from the given
sources): the field uses in `parser.rs` show an `id` cast with `as u8` and a
`payload` byte slice. -/
structure OutgoingCommand where
  id : Nat
  payload : List Nat
deriving DecidableEq, Repr

/-- A byte sink: which write operations fail, the bytes written so far, and
the count of write operations performed. -/
structure WSink where
  fails : Nat → Bool
  written : List Nat
  ops : Nat

/-- One `write_u8` call on the sink: on success the byte is appended; either
way the operation counter advances and a success flag is reported. -/
def WSink.writeU8 (s : WSink) (b : Nat) : WSink × Bool :=
  if s.fails s.ops then ({ s with ops := s.ops + 1 }, false)
  else ({ s with written := s.written ++ [b], ops := s.ops + 1 }, true)

/-- One `write(&[u8])` call writing a whole slice, as a single operation. -/
def WSink.writeSlice (s : WSink) (bs : List Nat) : WSink × Bool :=
  if s.fails s.ops then ({ s with ops := s.ops + 1 }, false)
  else ({ s with written := s.written ++ bs, ops := s.ops + 1 }, true)

/-- One `write_u16::<LittleEndian>` call, as a single operation. -/
def WSink.writeU16LE (s : WSink) (v : Nat) : WSink × Bool :=
  s.writeSlice (bytesU16LE v)

/-- A sink none of whose writes fail. -/
def okSink : WSink := ⟨fun _ => false, [], 0⟩

/-- A sink every one of whose writes fails. -/
def badSink : WSink := ⟨fun _ => true, [], 0⟩

/-- `START_BYTE_V1`. -/
def START_BYTE_V1 : Nat := 0x3E

/-- `START_BYTE_V2`. -/
def START_BYTE_V2 : Nat := 0x24

/-- One step of the `crc` crate's table-driven CRC-16 update
(`crc16::update`): index the table at `(acc ^ byte) & 0xFF` — the table entry
being eight reflected shift-xor rounds of the polynomial — and xor with
`acc >> 8`. -/
def crc16step (poly : Nat) (v : Nat) : Nat :=
  if v &&& 1 = 1 then (v >>> 1) ^^^ poly else v >>> 1

/-- The `crc` crate's `make_table` entry for index `i`: eight rounds of
`crc16step`. -/
def crc16table (poly : Nat) (i : Nat) : Nat :=
  crc16step poly (crc16step poly (crc16step poly (crc16step poly
    (crc16step poly (crc16step poly (crc16step poly (crc16step poly i)))))))

/-- `crc16::update(value, table, bytes)` folded over one byte. -/
def crc16update (poly : Nat) (value : Nat) (b : Nat) : Nat :=
  (value >>> 8) ^^^ crc16table poly ((value ^^^ b) &&& 255)

/-- `crc16::Digest::new(poly)` (initial value 0) fed `bytes`, then `sum16()`. -/
def crc16sum (poly : Nat) (bytes : List Nat) : Nat :=
  bytes.foldl (crc16update poly) 0

/-- `APIv1::write_cmd`: `Ok` is `some ()`; the `unwrap` panic on a payload
longer than 255 bytes is `none`.  Every sink write's success flag is
discarded, as in the source. -/
def APIv1.write_cmd (output : WSink) (cmd : OutgoingCommand) : WSink × Option Unit :=
  if cmd.payload.length ≤ 255 then
    let len := cmd.payload.length
    let id := cmd.id % 256
    let checksum := cmd.payload.foldl (fun acc x => (acc + x) % 256) 0
    let o1 := (output.writeU8 START_BYTE_V1).1
    let o2 := (o1.writeU8 id).1
    let o3 := (o2.writeU8 len).1
    let o4 := (o3.writeU8 ((id + len) % 256)).1
    let o5 := (o4.writeSlice cmd.payload).1
    let o6 := (o5.writeU8 checksum).1
    (o6, some ())
  else (output, none)

/-- `APIv2::write_cmd`: like v1 but start byte `0x24` and a two-byte
little-endian CRC-16 (polynomial `0x8005`) trailer over the payload. -/
def APIv2.write_cmd (output : WSink) (cmd : OutgoingCommand) : WSink × Option Unit :=
  if cmd.payload.length ≤ 255 then
    let len := cmd.payload.length
    let id := cmd.id % 256
    let checksum := crc16sum 0x8005 cmd.payload
    let o1 := (output.writeU8 START_BYTE_V2).1
    let o2 := (o1.writeU8 id).1
    let o3 := (o2.writeU8 len).1
    let o4 := (o3.writeU8 ((id + len) % 256)).1
    let o5 := (o4.writeSlice cmd.payload).1
    let o6 := (o5.writeU16LE checksum).1
    (o6, some ())
  else (output, none)

/-- Read exactly `n` payload bytes, failing with `eof` if the stream runs
short. -/
def readBytes : Nat → List Nat → Except RErr (List Nat) × List Nat
  | 0, s => (.ok [], s)
  | n + 1, s =>
    match readU8 s with
    | (.error e, s') => (.error e, s')
    | (.ok b, s') =>
      match readBytes n s' with
      | (.error e, s'') => (.error e, s'')
      | (.ok bs, s'') => (.ok (b :: bs), s'')

/-- Modelled from the spec: `APIv1::read_cmd` is `todo!()` in the source, and
spec §4.4 prescribes the decode algorithm — verify the generation-1 start
marker (framing error on mismatch, no resynchronization), read id and length,
verify the header checksum `(id + length) mod 256` (framing error), read
exactly `length` payload bytes, verify the one-byte modular payload sum
(integrity error), and yield `(id, payload)`. -/
def APIv1.read_cmd (input : List Nat) : Except RErr (Nat × List Nat) × List Nat :=
  match readU8 input with
  | (.error e, s) => (.error e, s)
  | (.ok start, s) =>
    if start = START_BYTE_V1 then
      match readU8 s with
      | (.error e, s1) => (.error e, s1)
      | (.ok id, s1) =>
        match readU8 s1 with
        | (.error e, s2) => (.error e, s2)
        | (.ok len, s2) =>
          match readU8 s2 with
          | (.error e, s3) => (.error e, s3)
          | (.ok hc, s3) =>
            if hc = (id + len) % 256 then
              match readBytes len s3 with
              | (.error e, s4) => (.error e, s4)
              | (.ok payload, s4) =>
                match readU8 s4 with
                | (.error e, s5) => (.error e, s5)
                | (.ok tc, s5) =>
                  if tc = payload.foldl (fun acc x => (acc + x) % 256) 0 then
                    (.ok (id, payload), s5)
                  else (.error (.integrity "payload checksum mismatch"), s5)
            else (.error (.framing "header checksum mismatch"), s3)
    else (.error (.framing "start marker mismatch"), s)

/-- Modelled from the spec: `APIv2::read_cmd` is `todo!()` in the source; as
for generation 1 but with start marker `0x24` and a two-byte little-endian
CRC-16 (polynomial `0x8005`) trailer over the payload, computed exactly as
the encoder computes it. -/
def APIv2.read_cmd (input : List Nat) : Except RErr (Nat × List Nat) × List Nat :=
  match readU8 input with
  | (.error e, s) => (.error e, s)
  | (.ok start, s) =>
    if start = START_BYTE_V2 then
      match readU8 s with
      | (.error e, s1) => (.error e, s1)
      | (.ok id, s1) =>
        match readU8 s1 with
        | (.error e, s2) => (.error e, s2)
        | (.ok len, s2) =>
          match readU8 s2 with
          | (.error e, s3) => (.error e, s3)
          | (.ok hc, s3) =>
            if hc = (id + len) % 256 then
              match readBytes len s3 with
              | (.error e, s4) => (.error e, s4)
              | (.ok payload, s4) =>
                match readU16LE s4 with
                | (.error e, s5) => (.error e, s5)
                | (.ok tc, s5) =>
                  if tc = crc16sum 0x8005 payload then
                    (.ok (id, payload), s5)
                  else (.error (.integrity "payload crc mismatch"), s5)
            else (.error (.framing "header checksum mismatch"), s3)
    else (.error (.framing "start marker mismatch"), s)

-- Sink bookkeeping on the all-successful sink.

theorem writeU8_ok (w : List Nat) (n : Nat) (b : Nat) :
    WSink.writeU8 ⟨fun _ => false, w, n⟩ b = (⟨fun _ => false, w ++ [b], n + 1⟩, true) := rfl

theorem writeSlice_ok (w : List Nat) (n : Nat) (bs : List Nat) :
    WSink.writeSlice ⟨fun _ => false, w, n⟩ bs = (⟨fun _ => false, w ++ bs, n + 1⟩, true) := rfl

/-- On a never-failing sink, `APIv1::write_cmd` emits the frame
`[0x3E, id, len, header checksum] ++ payload ++ [payload sum]`. -/
theorem writeCmdV1_okSink (cmd : OutgoingCommand) (h : cmd.payload.length ≤ 255) :
    APIv1.write_cmd okSink cmd =
      (⟨fun _ => false,
        START_BYTE_V1 :: cmd.id % 256 :: cmd.payload.length ::
          (cmd.id % 256 + cmd.payload.length) % 256 ::
          (cmd.payload ++ [cmd.payload.foldl (fun acc x => (acc + x) % 256) 0]), 6⟩,
       some ()) := by
  simp [APIv1.write_cmd, okSink, h, WSink.writeU8, WSink.writeSlice]

/-- On a never-failing sink, `APIv2::write_cmd` emits the frame
`[0x24, id, len, header checksum] ++ payload ++ crc16 bytes`. -/
theorem writeCmdV2_okSink (cmd : OutgoingCommand) (h : cmd.payload.length ≤ 255) :
    APIv2.write_cmd okSink cmd =
      (⟨fun _ => false,
        START_BYTE_V2 :: cmd.id % 256 :: cmd.payload.length ::
          (cmd.id % 256 + cmd.payload.length) % 256 ::
          (cmd.payload ++ bytesU16LE (crc16sum 0x8005 cmd.payload)), 6⟩,
       some ()) := by
  simp [APIv2.write_cmd, okSink, h, WSink.writeU8, WSink.writeSlice, WSink.writeU16LE]

theorem crc16step_lt (v : Nat) (hv : v < 65536) : crc16step 0x8005 v < 65536 := by
  have hs : v >>> 1 < 65536 := by
    rw [Nat.shiftRight_eq_div_pow]
    omega
  have h16 : (65536 : Nat) = 2 ^ 16 := by norm_num
  unfold crc16step
  split
  · rw [h16]
    exact Nat.xor_lt_two_pow (by rw [← h16]; exact hs) (by norm_num)
  · exact hs

theorem crc16table_lt (i : Nat) (hi : i < 65536) : crc16table 0x8005 i < 65536 := by
  unfold crc16table
  iterate 8 apply crc16step_lt
  exact hi

theorem crc16update_lt (value b : Nat) (hv : value < 65536) :
    crc16update 0x8005 value b < 65536 := by
  unfold crc16update
  have h1 : value >>> 8 < 65536 := by
    rw [Nat.shiftRight_eq_div_pow]
    omega
  have h2 : crc16table 0x8005 ((value ^^^ b) &&& 255) < 65536 := by
    apply crc16table_lt
    have : (value ^^^ b) &&& 255 ≤ 255 := Nat.and_le_right
    omega
  have := Nat.xor_lt_two_pow (n := 16) (by simpa using h1) (by simpa using h2)
  simpa using this

theorem crc16sum_lt (bytes : List Nat) : crc16sum 0x8005 bytes < 65536 := by
  unfold crc16sum
  suffices h : ∀ v, v < 65536 → bytes.foldl (crc16update 0x8005) v < 65536 by
    exact h 0 (by norm_num)
  induction bytes with
  | nil => intro v hv; simpa using hv
  | cons b bs ih =>
    intro v hv
    simpa using ih _ (crc16update_lt v b hv)

theorem readBytes_append (xs rest : List Nat) :
    readBytes xs.length (xs ++ rest) = (.ok xs, rest) := by
  induction xs with
  | nil => rfl
  | cons b bs ih =>
    simp [readBytes, readU8, ih]

/-- C1: encoding command id 21 with an empty payload under generation 1
writes exactly the bytes `3E 15 00 15 00` to the sink, in that order, and
returns `Ok`. -/
theorem writeCmdV1_id21_empty :
    (APIv1.write_cmd okSink ⟨21, []⟩).1.written = [0x3E, 0x15, 0x00, 0x15, 0x00] ∧
    (APIv1.write_cmd okSink ⟨21, []⟩).2 = some () := by
  constructor <;> rfl

set_option maxRecDepth 4000 in
/-- C3 (evaluation at the failing input): with a 256-byte payload,
`write_cmd` of either generation hits the `try_into().unwrap()` panic
(modelled as `none`) instead of returning a length-overflow encode error. -/
theorem writeCmd_overflow_panics :
    (APIv1.write_cmd okSink ⟨1, List.replicate 256 0⟩).2 = none ∧
    (APIv2.write_cmd okSink ⟨1, List.replicate 256 0⟩).2 = none := by
  have h : (List.replicate 256 (0 : Nat)).length = 256 := List.length_replicate 256 0
  constructor <;>
  · simp only [APIv1.write_cmd, APIv2.write_cmd, h]
    norm_num

/-- C4 (evaluation at the failing input): on a sink whose every write fails,
`write_cmd` of either generation still returns `Ok` — the source discards the
result of each sink write — and nothing was written. -/
theorem writeCmd_ignores_sink_errors :
    (APIv1.write_cmd badSink ⟨21, []⟩).2 = some () ∧
    (APIv1.write_cmd badSink ⟨21, []⟩).1.written = [] ∧
    (APIv2.write_cmd badSink ⟨21, []⟩).2 = some () ∧
    (APIv2.write_cmd badSink ⟨21, []⟩).1.written = [] := by
  refine ⟨rfl, rfl, rfl, rfl⟩

/-- C2: for both generations, for any command id in the byte domain and any
payload of up to 255 bytes, decoding the bytes written by `write_cmd` (on a
sink that accepts them) succeeds and yields the same id and payload, leaving
any trailing input untouched.  The decoder is modelled from spec §4.4, the
source's `read_cmd` being `todo!()`. -/
theorem read_cmd_write_cmd_roundtrip (cmd : OutgoingCommand) (rest : List Nat)
    (hid : cmd.id < 256) (hlen : cmd.payload.length ≤ 255)
    (_hbytes : ∀ b ∈ cmd.payload, b < 256) :
    (APIv1.write_cmd okSink cmd).2 = some () ∧
    APIv1.read_cmd ((APIv1.write_cmd okSink cmd).1.written ++ rest) =
      (.ok (cmd.id, cmd.payload), rest) ∧
    (APIv2.write_cmd okSink cmd).2 = some () ∧
    APIv2.read_cmd ((APIv2.write_cmd okSink cmd).1.written ++ rest) =
      (.ok (cmd.id, cmd.payload), rest) := by
  have hmod : cmd.id % 256 = cmd.id := Nat.mod_eq_of_lt hid
  refine ⟨by simp [writeCmdV1_okSink cmd hlen], ?_,
          by simp [writeCmdV2_okSink cmd hlen], ?_⟩
  · rw [writeCmdV1_okSink cmd hlen]
    have hsplit : (cmd.payload ++ [cmd.payload.foldl (fun acc x => (acc + x) % 256) 0]) ++ rest =
        cmd.payload ++ ([cmd.payload.foldl (fun acc x => (acc + x) % 256) 0] ++ rest) := by
      simp
    simp [APIv1.read_cmd, readU8, START_BYTE_V1, hmod, hsplit, readBytes_append]
  · rw [writeCmdV2_okSink cmd hlen]
    have hsplit : (cmd.payload ++ bytesU16LE (crc16sum 0x8005 cmd.payload)) ++ rest =
        cmd.payload ++ (bytesU16LE (crc16sum 0x8005 cmd.payload) ++ rest) := by
      simp
    have hcrc := readU16LE_bytes _ (crc16sum_lt cmd.payload) rest
    simp [APIv2.read_cmd, readU8, START_BYTE_V2, hmod, hsplit, readBytes_append, hcrc]

/-- Witness for C2: the round trip applied at id 21 with payload `[1, 2, 3]`. -/
theorem read_cmd_write_cmd_roundtrip_witness :
    (21 : Nat) < 256 ∧ ([1, 2, 3] : List Nat).length ≤ 255 ∧
    APIv1.read_cmd ((APIv1.write_cmd okSink ⟨21, [1, 2, 3]⟩).1.written ++ [9]) =
      (.ok (21, [1, 2, 3]), [9]) := by
  refine ⟨by decide, by decide, ?_⟩
  exact (read_cmd_write_cmd_roundtrip ⟨21, [1, 2, 3]⟩ [9] (by decide) (by decide)
    (by decide)).2.1

/-! ## Bit-flag codecs (`src/commands.rs`, `bitflags!` + `impl_bflags!`)

Each flag set is a wrapper around its backing integer.  `bitflags`'s
`from_bits(bits)` is `Some` exactly when `bits & !Self::all().bits() == 0`,
the complement taken at the backing width; `bits()` returns the backing
integer verbatim. -/

/-- `BoardInfoStateFlags`, backing type `u8`, declared bits `0b11111`. -/
structure BoardInfoStateFlags where
  bits : Nat
deriving DecidableEq, Repr

/-- `BoardInfoStateFlags::all().bits()`: the five declared bits. -/
def BoardInfoStateFlags.ALL : Nat := 0b11111

/-- `!BoardInfoStateFlags::all().bits()` at `u8` width. -/
def BoardInfoStateFlags.UNDECLARED : Nat := 0b11100000

/-- `impl_bflags!(BoardInfoStateFlags, u8)` decode: read the backing `u8`,
reject with `InvalidData` when `from_bits` fails. -/
def BoardInfoStateFlags.from_reader (s : List Nat) :
    Except RErr BoardInfoStateFlags × List Nat :=
  match readU8 s with
  | (.error e, s') => (.error e, s')
  | (.ok b, s') =>
    if b &&& BoardInfoStateFlags.UNDECLARED = 0 then (.ok ⟨b⟩, s')
    else (.error (.invalidData "invalid bits"), s')

/-- `impl_bflags!` encode: write `self.bits()` verbatim. -/
def BoardInfoStateFlags.to_writer (v : BoardInfoStateFlags) : Except RErr (List Nat) :=
  .ok [v.bits]

/-- `BoardInfoFeatures`, backing type `u16`, declared bits `0b111111`. -/
structure BoardInfoFeatures where
  bits : Nat
deriving DecidableEq, Repr

/-- `BoardInfoFeatures::all().bits()`. -/
def BoardInfoFeatures.ALL : Nat := 0b111111

/-- `!BoardInfoFeatures::all().bits()` at `u16` width. -/
def BoardInfoFeatures.UNDECLARED : Nat := 0b1111111111000000

/-- `impl_bflags!(BoardInfoFeatures, u16)` decode. -/
def BoardInfoFeatures.from_reader (s : List Nat) :
    Except RErr BoardInfoFeatures × List Nat :=
  match readU16LE s with
  | (.error e, s') => (.error e, s')
  | (.ok b, s') =>
    if b &&& BoardInfoFeatures.UNDECLARED = 0 then (.ok ⟨b⟩, s')
    else (.error (.invalidData "invalid bits"), s')

/-- `impl_bflags!(BoardInfoFeatures, u16)` encode. -/
def BoardInfoFeatures.to_writer (v : BoardInfoFeatures) : Except RErr (List Nat) :=
  .ok (bytesU16LE v.bits)

/-- `BoardInfoConnectionFlags`, backing type `u8`, declared bit `0b1`. -/
structure BoardInfoConnectionFlags where
  bits : Nat
deriving DecidableEq, Repr

/-- `BoardInfoConnectionFlags::all().bits()`. -/
def BoardInfoConnectionFlags.ALL : Nat := 0b1

/-- `!BoardInfoConnectionFlags::all().bits()` at `u8` width. -/
def BoardInfoConnectionFlags.UNDECLARED : Nat := 0b11111110

/-- `impl_bflags!(BoardInfoConnectionFlags, u8)` decode. -/
def BoardInfoConnectionFlags.from_reader (s : List Nat) :
    Except RErr BoardInfoConnectionFlags × List Nat :=
  match readU8 s with
  | (.error e, s') => (.error e, s')
  | (.ok b, s') =>
    if b &&& BoardInfoConnectionFlags.UNDECLARED = 0 then (.ok ⟨b⟩, s')
    else (.error (.invalidData "invalid bits"), s')

/-- `impl_bflags!(BoardInfoConnectionFlags, u8)` encode. -/
def BoardInfoConnectionFlags.to_writer (v : BoardInfoConnectionFlags) :
    Except RErr (List Nat) :=
  .ok [v.bits]

/-! ## Tagged-union codecs (`derive(Transmit)` on enums) -/

/-- `PWMFrequency`, wire representation `u8`, discriminants 0, 1, 2. -/
inductive PWMFrequency where
  | Low : PWMFrequency
  | High : PWMFrequency
  | Pitch : PWMFrequency
deriving DecidableEq, Repr

/-- Generated enum decode: read one `u8`, exact-match the discriminant
table, `InvalidData` otherwise. -/
def PWMFrequency.from_reader (s : List Nat) : Except RErr PWMFrequency × List Nat :=
  match readU8 s with
  | (.error e, s') => (.error e, s')
  | (.ok b, s') =>
    match b with
    | 0 => (.ok .Low, s')
    | 1 => (.ok .High, s')
    | 2 => (.ok .Pitch, s')
    | _ => (.error (.invalidData "read value does not match any enum variants"), s')

/-- Generated enum encode: map the variant to its discriminant and write it
through the wire type's codec. -/
def PWMFrequency.to_writer (v : PWMFrequency) : Except RErr (List Nat) :=
  match v with
  | .Low => .ok [0]
  | .High => .ok [1]
  | .Pitch => .ok [2]

/-- `BaudRate`, wire representation `u8`, discriminants 0–5. -/
inductive BaudRate where
  | Baud115200 : BaudRate
  | Baud57600 : BaudRate
  | Baud38400 : BaudRate
  | Baud19200 : BaudRate
  | Baud9600 : BaudRate
  | Baud256000 : BaudRate
deriving DecidableEq, Repr

/-- Generated enum decode for `BaudRate`. -/
def BaudRate.from_reader (s : List Nat) : Except RErr BaudRate × List Nat :=
  match readU8 s with
  | (.error e, s') => (.error e, s')
  | (.ok b, s') =>
    match b with
    | 0 => (.ok .Baud115200, s')
    | 1 => (.ok .Baud57600, s')
    | 2 => (.ok .Baud38400, s')
    | 3 => (.ok .Baud19200, s')
    | 4 => (.ok .Baud9600, s')
    | 5 => (.ok .Baud256000, s')
    | _ => (.error (.invalidData "read value does not match any enum variants"), s')

/-- Generated enum encode for `BaudRate`. -/
def BaudRate.to_writer (v : BaudRate) : Except RErr (List Nat) :=
  match v with
  | .Baud115200 => .ok [0]
  | .Baud57600 => .ok [1]
  | .Baud38400 => .ok [2]
  | .Baud19200 => .ok [3]
  | .Baud9600 => .ok [4]
  | .Baud256000 => .ok [5]

/-! ## `RcMode` (hand-written `Transmit` impl in `src/commands.rs`) -/

/-- `RcModeControl`. -/
inductive RcModeControl where
  | Angle : RcModeControl
  | Speed : RcModeControl
deriving DecidableEq, Repr

/-- `RcMode`. -/
structure RcMode where
  mode : RcModeControl
  inverted : Bool
deriving DecidableEq, Repr

/-- `RcMode::from_reader`: read one byte; the low two bits pick the mode
(`0b00` angle, `0b01` speed, anything else `InvalidData`); bit 2 is the
inversion flag; bits 3–7 are ignored. -/
def RcMode.from_reader (s : List Nat) : Except RErr RcMode × List Nat :=
  match readU8 s with
  | (.error e, s') => (.error e, s')
  | (.ok bits, s') =>
    match bits &&& 0b00000011 with
    | 0b00 => (.ok ⟨.Angle, bits &&& 0b00000100 != 0⟩, s')
    | 0b01 => (.ok ⟨.Speed, bits &&& 0b00000100 != 0⟩, s')
    | _ => (.error (.invalidData "lower 2 mode bits can only by 0b00 or 0b01"), s')

/-- `RcMode::to_writer`: or together the mode bits and the inversion bit and
write the single byte. -/
def RcMode.to_writer (v : RcMode) : Except RErr (List Nat) :=
  let bits :=
    (match v.mode with
     | .Angle => 0b00
     | .Speed => 0b01) |||
    (match v.inverted with
     | false => 0b000
     | true => 0b100)
  .ok [bits]

-- A bitmask-and is zero exactly when no set bit of the left operand is set
-- in the right operand.

theorem and_eq_zero_iff_testBit (b u : Nat) :
    b &&& u = 0 ↔ ∀ i, b.testBit i → u.testBit i = false := by
  constructor
  · intro h i hbi
    have := congrArg (fun x => Nat.testBit x i) h
    simpa [Nat.testBit_and, hbi] using this
  · intro h
    apply Nat.eq_of_testBit_eq
    intro i
    simp only [Nat.testBit_and, Nat.zero_testBit]
    cases hbi : b.testBit i with
    | false => simp
    | true => simp [h i hbi]

/-- `bits & !all == 0` at width `w` (the complement being `(2^w - 1) ^^^ all`)
holds exactly when every set bit of `bits` is a declared bit. -/
theorem and_complement_eq_zero_iff (w a b : Nat) (_ha : a < 2 ^ w) (hb : b < 2 ^ w) :
    b &&& ((2 ^ w - 1) ^^^ a) = 0 ↔ ∀ i, b.testBit i → a.testBit i = true := by
  rw [and_eq_zero_iff_testBit]
  have hiw : ∀ i, b.testBit i = true → i < w := by
    intro i hbi
    by_contra hge
    have hlt : b < 2 ^ i :=
      lt_of_lt_of_le hb (Nat.pow_le_pow_right (by norm_num) (le_of_not_lt hge))
    rw [Nat.testBit_lt_two_pow hlt] at hbi
    exact Bool.false_ne_true hbi
  constructor
  · intro h i hbi
    have hu := h i hbi
    rw [Nat.testBit_xor, Nat.testBit_two_pow_sub_one] at hu
    have : i < w := hiw i hbi
    simpa [this] using hu
  · intro h i hbi
    rw [Nat.testBit_xor, Nat.testBit_two_pow_sub_one]
    simp [hiw i hbi, h i hbi]

theorem stateFlags_undeclared_eq :
    BoardInfoStateFlags.UNDECLARED = (2 ^ 8 - 1) ^^^ BoardInfoStateFlags.ALL := by decide

theorem features_undeclared_eq :
    BoardInfoFeatures.UNDECLARED = (2 ^ 16 - 1) ^^^ BoardInfoFeatures.ALL := by decide

theorem connectionFlags_undeclared_eq :
    BoardInfoConnectionFlags.UNDECLARED = (2 ^ 8 - 1) ^^^ BoardInfoConnectionFlags.ALL := by
  decide

/-- C7: for each of the three bit-flag types, decoding a backing integer all
of whose set bits are declared succeeds with exactly those bits; decoding one
with any undeclared set bit fails with `InvalidData`; and encode writes the
backing integer verbatim. -/
theorem bflags_decode_encode (b w : Nat) (hb : b < 256) (hw : w < 65536)
    (rest : List Nat) :
    ((∀ i, b.testBit i → BoardInfoStateFlags.ALL.testBit i) →
      BoardInfoStateFlags.from_reader (b :: rest) = (.ok ⟨b⟩, rest)) ∧
    ((∃ i, b.testBit i ∧ ¬BoardInfoStateFlags.ALL.testBit i) →
      BoardInfoStateFlags.from_reader (b :: rest) =
        (.error (.invalidData "invalid bits"), rest)) ∧
    BoardInfoStateFlags.to_writer ⟨b⟩ = .ok [b] ∧
    ((∀ i, b.testBit i → BoardInfoConnectionFlags.ALL.testBit i) →
      BoardInfoConnectionFlags.from_reader (b :: rest) = (.ok ⟨b⟩, rest)) ∧
    ((∃ i, b.testBit i ∧ ¬BoardInfoConnectionFlags.ALL.testBit i) →
      BoardInfoConnectionFlags.from_reader (b :: rest) =
        (.error (.invalidData "invalid bits"), rest)) ∧
    BoardInfoConnectionFlags.to_writer ⟨b⟩ = .ok [b] ∧
    ((∀ i, w.testBit i → BoardInfoFeatures.ALL.testBit i) →
      BoardInfoFeatures.from_reader (bytesU16LE w ++ rest) = (.ok ⟨w⟩, rest)) ∧
    ((∃ i, w.testBit i ∧ ¬BoardInfoFeatures.ALL.testBit i) →
      BoardInfoFeatures.from_reader (bytesU16LE w ++ rest) =
        (.error (.invalidData "invalid bits"), rest)) ∧
    BoardInfoFeatures.to_writer ⟨w⟩ = .ok (bytesU16LE w) := by
  have hSall : BoardInfoStateFlags.ALL < 2 ^ 8 := by decide
  have hCall : BoardInfoConnectionFlags.ALL < 2 ^ 8 := by decide
  have hFall : BoardInfoFeatures.ALL < 2 ^ 16 := by decide
  have hb8 : b < 2 ^ 8 := hb
  have hw16 : w < 2 ^ 16 := hw
  have hS := and_complement_eq_zero_iff 8 BoardInfoStateFlags.ALL b hSall hb8
  have hC := and_complement_eq_zero_iff 8 BoardInfoConnectionFlags.ALL b hCall hb8
  have hF := and_complement_eq_zero_iff 16 BoardInfoFeatures.ALL w hFall hw16
  rw [← stateFlags_undeclared_eq] at hS
  rw [← connectionFlags_undeclared_eq] at hC
  rw [← features_undeclared_eq] at hF
  refine ⟨?_, ?_, rfl, ?_, ?_, rfl, ?_, ?_, rfl⟩
  · intro h
    have hz : b &&& BoardInfoStateFlags.UNDECLARED = 0 := hS.mpr (fun i hi => h i hi)
    simp [BoardInfoStateFlags.from_reader, readU8, hz]
  · rintro ⟨i, hbi, hai⟩
    have hz : b &&& BoardInfoStateFlags.UNDECLARED ≠ 0 := by
      intro hzero
      exact hai (hS.mp hzero i hbi)
    simp [BoardInfoStateFlags.from_reader, readU8, hz]
  · intro h
    have hz : b &&& BoardInfoConnectionFlags.UNDECLARED = 0 := hC.mpr (fun i hi => h i hi)
    simp [BoardInfoConnectionFlags.from_reader, readU8, hz]
  · rintro ⟨i, hbi, hai⟩
    have hz : b &&& BoardInfoConnectionFlags.UNDECLARED ≠ 0 := by
      intro hzero
      exact hai (hC.mp hzero i hbi)
    simp [BoardInfoConnectionFlags.from_reader, readU8, hz]
  · intro h
    have hz : w &&& BoardInfoFeatures.UNDECLARED = 0 := hF.mpr (fun i hi => h i hi)
    simp [BoardInfoFeatures.from_reader, readU16LE_bytes w hw rest, hz]
  · rintro ⟨i, hbi, hai⟩
    have hz : w &&& BoardInfoFeatures.UNDECLARED ≠ 0 := by
      intro hzero
      exact hai (hF.mp hzero i hbi)
    simp [BoardInfoFeatures.from_reader, readU16LE_bytes w hw rest, hz]

/-- Witness for C7: bits `0b10011` (all declared) decode to themselves, bits
`0b100001` (bit 5 undeclared) are rejected, at the `u8` state-flags type. -/
theorem bflags_decode_encode_witness :
    (0b10011 : Nat) < 256 ∧
    BoardInfoStateFlags.from_reader [0b10011] = (.ok ⟨0b10011⟩, []) ∧
    BoardInfoStateFlags.from_reader [0b100001] =
      (.error (.invalidData "invalid bits"), []) := by
  refine ⟨by decide, ?_, ?_⟩
  · refine (bflags_decode_encode 0b10011 0 (by decide) (by decide) []).1 ?_
    intro i hi
    have hlt : i < 5 := by
      by_contra hge
      have h5 : (0b10011 : Nat) < 2 ^ 5 := by norm_num
      have hp : (0b10011 : Nat) < 2 ^ i :=
        lt_of_lt_of_le h5 (Nat.pow_le_pow_right (by norm_num) (by omega))
      rw [Nat.testBit_lt_two_pow hp] at hi
      exact Bool.false_ne_true hi
    interval_cases i <;> revert hi <;> decide
  · exact (bflags_decode_encode 0b100001 0 (by decide) (by decide) []).2.1
      (by refine ⟨5, by decide, by decide⟩)

/-- C6: for the two derived tagged unions, decoding a wire byte equal to a
declared discriminant yields exactly the matching variant, and every other
byte value fails with `InvalidData`, never a default variant. -/
theorem enum_decode_exact (b : Nat) (hb : b < 256) (rest : List Nat) :
    (b = 0 → PWMFrequency.from_reader (b :: rest) = (.ok .Low, rest)) ∧
    (b = 1 → PWMFrequency.from_reader (b :: rest) = (.ok .High, rest)) ∧
    (b = 2 → PWMFrequency.from_reader (b :: rest) = (.ok .Pitch, rest)) ∧
    (2 < b → PWMFrequency.from_reader (b :: rest) =
      (.error (.invalidData "read value does not match any enum variants"), rest)) ∧
    (b = 0 → BaudRate.from_reader (b :: rest) = (.ok .Baud115200, rest)) ∧
    (b = 1 → BaudRate.from_reader (b :: rest) = (.ok .Baud57600, rest)) ∧
    (b = 2 → BaudRate.from_reader (b :: rest) = (.ok .Baud38400, rest)) ∧
    (b = 3 → BaudRate.from_reader (b :: rest) = (.ok .Baud19200, rest)) ∧
    (b = 4 → BaudRate.from_reader (b :: rest) = (.ok .Baud9600, rest)) ∧
    (b = 5 → BaudRate.from_reader (b :: rest) = (.ok .Baud256000, rest)) ∧
    (5 < b → BaudRate.from_reader (b :: rest) =
      (.error (.invalidData "read value does not match any enum variants"), rest)) := by
  refine ⟨?_, ?_, ?_, ?_, ?_, ?_, ?_, ?_, ?_, ?_, ?_⟩ <;> intro h
  · subst h; rfl
  · subst h; rfl
  · subst h; rfl
  · obtain ⟨n, rfl⟩ : ∃ n, b = n + 3 := ⟨b - 3, by omega⟩
    rfl
  · subst h; rfl
  · subst h; rfl
  · subst h; rfl
  · subst h; rfl
  · subst h; rfl
  · subst h; rfl
  · obtain ⟨n, rfl⟩ : ∃ n, b = n + 6 := ⟨b - 6, by omega⟩
    rfl

/-- Witness for C6: byte 2 decodes to `Pitch`; byte 3 is rejected. -/
theorem enum_decode_exact_witness :
    (3 : Nat) < 256 ∧
    PWMFrequency.from_reader [2] = (.ok .Pitch, []) ∧
    PWMFrequency.from_reader [3] =
      (.error (.invalidData "read value does not match any enum variants"), []) := by
  refine ⟨by decide, ?_, ?_⟩
  · exact (enum_decode_exact 2 (by decide) []).2.2.1 rfl
  · exact (enum_decode_exact 3 (by decide) []).2.2.2.1 (by decide)

/-- C9: `RcMode::from_reader` looks only at the low three bits: a byte whose
low two bits are `0b10` or `0b11` fails with `InvalidData`; any other byte
decodes successfully (bits 3–7 ignored), and re-encoding the decoded value
yields the byte with bits 3 through 7 cleared. -/
theorem rcmode_low_bits (b : Nat) (_hb : b < 256) :
    (b &&& 3 = 2 ∨ b &&& 3 = 3 →
      RcMode.from_reader [b] =
        (.error (.invalidData "lower 2 mode bits can only by 0b00 or 0b01"), [])) ∧
    (b &&& 3 = 0 →
      RcMode.from_reader [b] = (.ok ⟨.Angle, b &&& 4 != 0⟩, []) ∧
      RcMode.to_writer ⟨.Angle, b &&& 4 != 0⟩ = .ok [b &&& 7]) ∧
    (b &&& 3 = 1 →
      RcMode.from_reader [b] = (.ok ⟨.Speed, b &&& 4 != 0⟩, []) ∧
      RcMode.to_writer ⟨.Speed, b &&& 4 != 0⟩ = .ok [b &&& 7]) := by
  have h4 : b &&& 4 = 0 ∨ b &&& 4 = 4 := by
    have h := Nat.and_two_pow b 2
    norm_num at h
    cases hbit : b.testBit 2 <;> rw [hbit] at h <;> simp at h <;> omega
  have h7 : b &&& 7 = (b &&& 3) ||| (b &&& 4) := by
    have h34 : (7 : Nat) = 3 ||| 4 := by decide
    rw [h34, Nat.and_or_distrib_left]
  refine ⟨?_, ?_, ?_⟩
  · rintro (h | h) <;> simp [RcMode.from_reader, readU8, h]
  · intro h
    refine ⟨by simp [RcMode.from_reader, readU8, h], ?_⟩
    rcases h4 with h4 | h4 <;> simp [RcMode.to_writer, h7, h, h4]
  · intro h
    refine ⟨by simp [RcMode.from_reader, readU8, h], ?_⟩
    rcases h4 with h4 | h4 <;> simp [RcMode.to_writer, h7, h, h4]

/-- Witness for C9: byte `0b11101` (low bits `01`, bit 2 set, high bits set)
decodes to inverted speed mode and re-encodes to `0b101`; byte `0b111`
(low bits `11`) is rejected. -/
theorem rcmode_low_bits_witness :
    (0b11101 : Nat) < 256 ∧
    RcMode.from_reader [0b11101] = (.ok ⟨.Speed, true⟩, []) ∧
    RcMode.to_writer ⟨.Speed, true⟩ = .ok [0b101] ∧
    RcMode.from_reader [0b111] =
      (.error (.invalidData "lower 2 mode bits can only by 0b00 or 0b01"), []) := by
  refine ⟨by decide, ?_, ?_, ?_⟩
  · exact ((rcmode_low_bits 0b11101 (by decide)).2.2 (by decide)).1
  · exact ((rcmode_low_bits 0b11101 (by decide)).2.2 (by decide)).2
  · exact (rcmode_low_bits 0b111 (by decide)).1 (by decide)

/-! ## Record codecs (`derive(Transmit)` on structs)

The generated `from_reader` fills every field in declaration order from the
reader and only then calls `validate`; `to_writer` calls `validate` first
and then writes every field in order.  The field-filling phase is factored
out as `readFields` per record; `from_reader` is `readFields` followed by
the validation check, exactly the generated shape.  Codec-level writers are
`α → Except RErr (List Nat)`: the only codec-level failure is validation
(the byte sink at this layer is pure), and primitive writers never fail. -/

/-- `u8::to_writer`: `writer.write_u8(*self)`. -/
def writeU8Bytes (b : Nat) : Except RErr (List Nat) := .ok [b]

/-- `i8::to_writer`: `writer.write_i8(*self)`. -/
def writeI8Bytes (v : Int) : Except RErr (List Nat) := .ok (bytesI8 v)

/-- `u16::to_writer`: `writer.write_u16::<LittleEndian>(*self)`. -/
def writeU16Bytes (v : Nat) : Except RErr (List Nat) := .ok (bytesU16LE v)

/-- `i16::to_writer`: `writer.write_i16::<LittleEndian>(*self)`. -/
def writeI16Bytes (v : Int) : Except RErr (List Nat) := .ok (bytesI16LE v)

/-- `u64::to_writer`: `writer.write_u64::<LittleEndian>(*self)`. -/
def writeU64Bytes (v : Nat) : Except RErr (List Nat) := .ok (bytesU64LE v)

/-- `bool::from_reader`: one byte, only 0 and 1 are valid. -/
def readBool (s : List Nat) : Except RErr Bool × List Nat :=
  match readU8 s with
  | (.error e, s') => (.error e, s')
  | (.ok b, s') =>
    match b with
    | 0 => (.ok false, s')
    | 1 => (.ok true, s')
    | _ => (.error (.invalidData "bool must be either 0 or 1"), s')

/-- `bool::to_writer`: 0 for false, 1 for true. -/
def writeBool (v : Bool) : Except RErr (List Nat) :=
  match v with
  | false => .ok [0]
  | true => .ok [1]

/-- `[T; N]::from_reader`: read `n` elements in order, aborting on the first
element error. -/
def readN (f : List Nat → Except RErr α × List Nat) :
    Nat → List Nat → Except RErr (List α) × List Nat
  | 0, s => (.ok [], s)
  | n + 1, s =>
    match f s with
    | (.error e, s') => (.error e, s')
    | (.ok a, s') =>
      match readN f n s' with
      | (.error e, s'') => (.error e, s'')
      | (.ok as, s'') => (.ok (a :: as), s'')

/-- `[T; N]::to_writer`: write the elements in order, aborting on the first
element error. -/
def writeN (w : α → Except RErr (List Nat)) : List α → Except RErr (List Nat)
  | [] => .ok []
  | a :: as =>
    match w a with
    | .error e => .error e
    | .ok bs =>
      match writeN w as with
      | .error e => .error e
      | .ok bs' => .ok (bs ++ bs')

-- Round trips of the element-level codecs, in write-then-read form.

theorem readBool_writeBool (v : Bool) (bs rest : List Nat)
    (h : writeBool v = .ok bs) : readBool (bs ++ rest) = (.ok v, rest) := by
  cases v <;> · injection h with h; subst h; rfl

theorem readN_writeN {α : Type} (f : List Nat → Except RErr α × List Nat)
    (w : α → Except RErr (List Nat)) (wfe : α → Prop)
    (hrt : ∀ a bs rest, wfe a → w a = .ok bs → f (bs ++ rest) = (.ok a, rest)) :
    ∀ (l : List α) (bs rest : List Nat), (∀ a ∈ l, wfe a) → writeN w l = .ok bs →
      readN f l.length (bs ++ rest) = (.ok l, rest) := by
  intro l
  induction l with
  | nil =>
    intro bs rest _ h
    injection h with h
    subst h
    rfl
  | cons a as ih =>
    intro bs rest hwf h
    unfold writeN at h
    cases hwa : w a with
    | error e => rw [hwa] at h; exact absurd h (by simp)
    | ok b1 =>
      rw [hwa] at h
      cases hwas : writeN w as with
      | error e => rw [hwas] at h; exact absurd h (by simp)
      | ok brest =>
        rw [hwas] at h
        injection h with h
        subst h
        have h1 : f (b1 ++ (brest ++ rest)) = (.ok a, brest ++ rest) :=
          hrt a b1 (brest ++ rest) (hwf a (by simp)) hwa
        have h2 : readN f as.length (brest ++ rest) = (.ok as, rest) :=
          ih brest rest (fun x hx => hwf x (by simp [hx])) hwas
        simp [readN, h1, h2]

-- Byte-consumption facts: a successful read consumes exactly the codec's
-- fixed encoded size.

theorem readU8_consumes (s : List Nat) (a : Nat) (s' : List Nat)
    (h : readU8 s = (.ok a, s')) : s.length = 1 + s'.length := by
  cases s with
  | nil => exact absurd h (by simp [readU8])
  | cons b rest =>
    simp only [readU8] at h
    injection h with h1 h2
    subst h2
    simp [Nat.add_comm]

theorem readU16LE_consumes (s : List Nat) (a : Nat) (s' : List Nat)
    (h : readU16LE s = (.ok a, s')) : s.length = 2 + s'.length := by
  unfold readU16LE at h
  split at h
  · injection h with h1 h2
    subst h2
    simp
    omega
  · exact absurd h (by simp)

theorem readU64LE_consumes (s : List Nat) (a : Nat) (s' : List Nat)
    (h : readU64LE s = (.ok a, s')) : s.length = 8 + s'.length := by
  unfold readU64LE at h
  split at h
  · injection h with h1 h2
    subst h2
    simp
    omega
  · exact absurd h (by simp)

theorem readI8_consumes (s : List Nat) (a : Int) (s' : List Nat)
    (h : readI8 s = (.ok a, s')) : s.length = 1 + s'.length := by
  unfold readI8 at h
  cases hr : readU8 s with
  | mk r rs =>
    rw [hr] at h
    cases r with
    | error e => exact absurd h (by simp)
    | ok b =>
      injection h with h1 h2
      subst h2
      exact readU8_consumes s b _ hr

theorem readI16LE_consumes (s : List Nat) (a : Int) (s' : List Nat)
    (h : readI16LE s = (.ok a, s')) : s.length = 2 + s'.length := by
  unfold readI16LE at h
  cases hr : readU16LE s with
  | mk r rs =>
    rw [hr] at h
    cases r with
    | error e => exact absurd h (by simp)
    | ok b =>
      injection h with h1 h2
      subst h2
      exact readU16LE_consumes s b _ hr

theorem readBool_consumes (s : List Nat) (a : Bool) (s' : List Nat)
    (h : readBool s = (.ok a, s')) : s.length = 1 + s'.length := by
  unfold readBool at h
  cases hr : readU8 s with
  | mk r rs =>
    rw [hr] at h
    cases r with
    | error e => exact absurd h (by simp)
    | ok b =>
      have hs : rs = s' := by
        match b, h with
        | 0, h => injection h with h1 h2
        | 1, h => injection h with h1 h2
        | n + 2, h => exact absurd h (by simp)
      subst hs
      exact readU8_consumes s b _ hr

theorem readN_consumes {α : Type} (f : List Nat → Except RErr α × List Nat) (k : Nat)
    (hf : ∀ s a s', f s = (.ok a, s') → s.length = k + s'.length) :
    ∀ (n : Nat) (s : List Nat) (l : List α) (s' : List Nat),
      readN f n s = (.ok l, s') → s.length = n * k + s'.length := by
  intro n
  induction n with
  | zero =>
    intro s l s' h
    injection h with h1 h2
    subst h2
    simp
  | succ m ih =>
    intro s l s' h
    unfold readN at h
    cases hr : f s with
    | mk r rs =>
      rw [hr] at h
      try dsimp only at h
      cases r with
      | error e => exact absurd h (by simp)
      | ok a =>
        try dsimp only at h
        cases hrn : readN f m rs with
        | mk rn rns =>
          rw [hrn] at h
          try dsimp only at h
          cases rn with
          | error e => exact absurd h (by simp)
          | ok as =>
            injection h with h1 h2
            subst h2
            have e1 := hf s a rs hr
            have e2 := ih rs as _ hrn
            have hmul : (m + 1) * k = k + m * k := by ring
            omega

-- Rust type-level invariants, made explicit over the `Nat`/`Int` carriers.

/-- The `u8` value domain. -/
def wfU8 (b : Nat) : Prop := b < 256

/-- The `i8` value domain. -/
def wfI8 (v : Int) : Prop := -128 ≤ v ∧ v < 128

/-- The `u16` value domain. -/
def wfU16 (v : Nat) : Prop := v < 65536

/-- The `i16` value domain. -/
def wfI16 (v : Int) : Prop := -32768 ≤ v ∧ v < 32768

/-- The `u64` value domain. -/
def wfU64 (v : Nat) : Prop := v < 2 ^ 64

/-- The value domain of a `BoardInfoStateFlags` (only declared bits set). -/
def BoardInfoStateFlags.wf (v : BoardInfoStateFlags) : Prop :=
  v.bits < 256 ∧ v.bits &&& BoardInfoStateFlags.UNDECLARED = 0

/-- The value domain of a `BoardInfoFeatures`. -/
def BoardInfoFeatures.wf (v : BoardInfoFeatures) : Prop :=
  v.bits < 65536 ∧ v.bits &&& BoardInfoFeatures.UNDECLARED = 0

/-- The value domain of a `BoardInfoConnectionFlags`. -/
def BoardInfoConnectionFlags.wf (v : BoardInfoConnectionFlags) : Prop :=
  v.bits < 256 ∧ v.bits &&& BoardInfoConnectionFlags.UNDECLARED = 0

-- Write-then-read round trips for the leaf codecs.

theorem stateFlags_rt (v : BoardInfoStateFlags) (bs rest : List Nat)
    (hwf : BoardInfoStateFlags.wf v) (h : BoardInfoStateFlags.to_writer v = .ok bs) :
    BoardInfoStateFlags.from_reader (bs ++ rest) = (.ok v, rest) := by
  obtain ⟨bits⟩ := v
  injection h with h
  subst h
  simp [BoardInfoStateFlags.from_reader, readU8, hwf.2]

theorem features_rt (v : BoardInfoFeatures) (bs rest : List Nat)
    (hwf : BoardInfoFeatures.wf v) (h : BoardInfoFeatures.to_writer v = .ok bs) :
    BoardInfoFeatures.from_reader (bs ++ rest) = (.ok v, rest) := by
  obtain ⟨bits⟩ := v
  injection h with h
  subst h
  simp [BoardInfoFeatures.from_reader, readU16LE_bytes bits hwf.1 rest, hwf.2]

theorem connectionFlags_rt (v : BoardInfoConnectionFlags) (bs rest : List Nat)
    (hwf : BoardInfoConnectionFlags.wf v) (h : BoardInfoConnectionFlags.to_writer v = .ok bs) :
    BoardInfoConnectionFlags.from_reader (bs ++ rest) = (.ok v, rest) := by
  obtain ⟨bits⟩ := v
  injection h with h
  subst h
  simp [BoardInfoConnectionFlags.from_reader, readU8, hwf.2]

theorem pwmFrequency_rt (v : PWMFrequency) (bs rest : List Nat)
    (h : PWMFrequency.to_writer v = .ok bs) :
    PWMFrequency.from_reader (bs ++ rest) = (.ok v, rest) := by
  cases v <;> · injection h with h; subst h; rfl

theorem baudRate_rt (v : BaudRate) (bs rest : List Nat)
    (h : BaudRate.to_writer v = .ok bs) :
    BaudRate.from_reader (bs ++ rest) = (.ok v, rest) := by
  cases v <;> · injection h with h; subst h; rfl

theorem rcMode_rt (v : RcMode) (bs rest : List Nat)
    (h : RcMode.to_writer v = .ok bs) :
    RcMode.from_reader (bs ++ rest) = (.ok v, rest) := by
  obtain ⟨mode, inverted⟩ := v
  cases mode <;> cases inverted <;> · injection h with h; subst h; rfl

/-- `MotorStatus` (all fields but `invert` carry `#[range(0..=255)]`). -/
structure MotorStatus where
  p : Nat
  i : Nat
  d : Nat
  power : Nat
  invert : Bool
  poles : Nat
deriving DecidableEq, Repr

/-- The value domain of a `MotorStatus` (`u8` fields and a `bool`). -/
def MotorStatus.wf (v : MotorStatus) : Prop :=
  wfU8 v.p ∧ wfU8 v.i ∧ wfU8 v.d ∧ wfU8 v.power ∧ wfU8 v.poles

/-- Generated `MotorStatus::validate`: one range check per attributed field,
in declaration order. -/
def MotorStatus.validate (v : MotorStatus) : Except RErr Unit :=
  if ¬(0 ≤ v.p ∧ v.p ≤ 255) then .error (.invalidData "data outside of valid range")
  else if ¬(0 ≤ v.i ∧ v.i ≤ 255) then .error (.invalidData "data outside of valid range")
  else if ¬(0 ≤ v.d ∧ v.d ≤ 255) then .error (.invalidData "data outside of valid range")
  else if ¬(0 ≤ v.power ∧ v.power ≤ 255) then .error (.invalidData "data outside of valid range")
  else if ¬(0 ≤ v.poles ∧ v.poles ≤ 255) then .error (.invalidData "data outside of valid range")
  else .ok ()

/-- The field-filling phase of the generated `MotorStatus::from_reader`. -/
def MotorStatus.readFields (s : List Nat) : Except RErr MotorStatus × List Nat :=
  match readU8 s with
  | (.error e, s') => (.error e, s')
  | (.ok p, s1) =>
  match readU8 s1 with
  | (.error e, s') => (.error e, s')
  | (.ok i, s2) =>
  match readU8 s2 with
  | (.error e, s') => (.error e, s')
  | (.ok d, s3) =>
  match readU8 s3 with
  | (.error e, s') => (.error e, s')
  | (.ok power, s4) =>
  match readBool s4 with
  | (.error e, s') => (.error e, s')
  | (.ok invert, s5) =>
  match readU8 s5 with
  | (.error e, s') => (.error e, s')
  | (.ok poles, s6) => (.ok ⟨p, i, d, power, invert, poles⟩, s6)

/-- Generated `MotorStatus::from_reader`: fill all fields, then validate. -/
def MotorStatus.from_reader (s : List Nat) : Except RErr MotorStatus × List Nat :=
  match MotorStatus.readFields s with
  | (.error e, s') => (.error e, s')
  | (.ok v, s') =>
    match MotorStatus.validate v with
    | .error e => (.error e, s')
    | .ok _ => (.ok v, s')

/-- Generated `MotorStatus::to_writer`: validate, then write each field in
order. -/
def MotorStatus.to_writer (v : MotorStatus) : Except RErr (List Nat) :=
  match MotorStatus.validate v with
  | .error e => .error e
  | .ok _ =>
  match writeU8Bytes v.p with
  | .error e => .error e
  | .ok b1 =>
  match writeU8Bytes v.i with
  | .error e => .error e
  | .ok b2 =>
  match writeU8Bytes v.d with
  | .error e => .error e
  | .ok b3 =>
  match writeU8Bytes v.power with
  | .error e => .error e
  | .ok b4 =>
  match writeBool v.invert with
  | .error e => .error e
  | .ok b5 =>
  match writeU8Bytes v.poles with
  | .error e => .error e
  | .ok b6 => .ok (b1 ++ (b2 ++ (b3 ++ (b4 ++ (b5 ++ b6)))))

theorem motorStatus_rt (v : MotorStatus) (bs rest : List Nat)
    (_hwf : MotorStatus.wf v) (h : MotorStatus.to_writer v = .ok bs) :
    MotorStatus.from_reader (bs ++ rest) = (.ok v, rest) := by
  obtain ⟨p, i, d, power, invert, poles⟩ := v
  unfold MotorStatus.to_writer at h
  cases hval : MotorStatus.validate ⟨p, i, d, power, invert, poles⟩ with
  | error e => rw [hval] at h; exact absurd h (by simp)
  | ok u =>
    rw [hval] at h
    cases invert <;>
    · try dsimp only [writeU8Bytes, writeBool] at h
      injection h with h
      subst h
      simp [MotorStatus.from_reader, MotorStatus.readFields, readU8, readBool, hval]

/-- `RcStatus` (ranges: angles `-720..=720`, `lpf 0..=15`, `speed 0..=255`,
`follow -127..=127`). -/
structure RcStatus where
  min_angle : Int
  max_angle : Int
  mode : RcMode
  lpf : Nat
  speed : Nat
  follow : Int
deriving DecidableEq, Repr

/-- The value domain of an `RcStatus` (`i16`, `i16`, one byte, `u8`, `u8`,
`i8`). -/
def RcStatus.wf (v : RcStatus) : Prop :=
  wfI16 v.min_angle ∧ wfI16 v.max_angle ∧ wfU8 v.lpf ∧ wfU8 v.speed ∧ wfI8 v.follow

/-- Generated `RcStatus::validate`. -/
def RcStatus.validate (v : RcStatus) : Except RErr Unit :=
  if ¬(-720 ≤ v.min_angle ∧ v.min_angle ≤ 720) then
    .error (.invalidData "data outside of valid range")
  else if ¬(-720 ≤ v.max_angle ∧ v.max_angle ≤ 720) then
    .error (.invalidData "data outside of valid range")
  else if ¬(0 ≤ v.lpf ∧ v.lpf ≤ 15) then
    .error (.invalidData "data outside of valid range")
  else if ¬(0 ≤ v.speed ∧ v.speed ≤ 255) then
    .error (.invalidData "data outside of valid range")
  else if ¬(-127 ≤ v.follow ∧ v.follow ≤ 127) then
    .error (.invalidData "data outside of valid range")
  else .ok ()

/-- The field-filling phase of the generated `RcStatus::from_reader`. -/
def RcStatus.readFields (s : List Nat) : Except RErr RcStatus × List Nat :=
  match readI16LE s with
  | (.error e, s') => (.error e, s')
  | (.ok min_a, s1) =>
  match readI16LE s1 with
  | (.error e, s') => (.error e, s')
  | (.ok max_a, s2) =>
  match RcMode.from_reader s2 with
  | (.error e, s') => (.error e, s')
  | (.ok mode, s3) =>
  match readU8 s3 with
  | (.error e, s') => (.error e, s')
  | (.ok lpf, s4) =>
  match readU8 s4 with
  | (.error e, s') => (.error e, s')
  | (.ok speed, s5) =>
  match readI8 s5 with
  | (.error e, s') => (.error e, s')
  | (.ok follow, s6) => (.ok ⟨min_a, max_a, mode, lpf, speed, follow⟩, s6)

/-- Generated `RcStatus::from_reader`: fill all fields, then validate. -/
def RcStatus.from_reader (s : List Nat) : Except RErr RcStatus × List Nat :=
  match RcStatus.readFields s with
  | (.error e, s') => (.error e, s')
  | (.ok v, s') =>
    match RcStatus.validate v with
    | .error e => (.error e, s')
    | .ok _ => (.ok v, s')

/-- Generated `RcStatus::to_writer`: validate, then write each field in
order. -/
def RcStatus.to_writer (v : RcStatus) : Except RErr (List Nat) :=
  match RcStatus.validate v with
  | .error e => .error e
  | .ok _ =>
  match writeI16Bytes v.min_angle with
  | .error e => .error e
  | .ok b1 =>
  match writeI16Bytes v.max_angle with
  | .error e => .error e
  | .ok b2 =>
  match RcMode.to_writer v.mode with
  | .error e => .error e
  | .ok b3 =>
  match writeU8Bytes v.lpf with
  | .error e => .error e
  | .ok b4 =>
  match writeU8Bytes v.speed with
  | .error e => .error e
  | .ok b5 =>
  match writeI8Bytes v.follow with
  | .error e => .error e
  | .ok b6 => .ok (b1 ++ (b2 ++ (b3 ++ (b4 ++ (b5 ++ b6)))))

theorem rcStatus_rt (v : RcStatus) (bs rest : List Nat)
    (hwf : RcStatus.wf v) (h : RcStatus.to_writer v = .ok bs) :
    RcStatus.from_reader (bs ++ rest) = (.ok v, rest) := by
  obtain ⟨min_a, max_a, mode, lpf, speed, follow⟩ := v
  obtain ⟨hmin, hmax, hlpf, hspeed, hfollow⟩ := hwf
  unfold RcStatus.to_writer at h
  cases hval : RcStatus.validate ⟨min_a, max_a, mode, lpf, speed, follow⟩ with
  | error e => rw [hval] at h; exact absurd h (by simp)
  | ok u =>
    rw [hval] at h
    cases hm : RcMode.to_writer mode with
    | error e =>
      obtain ⟨md, inv⟩ := mode
      cases md <;> cases inv <;> exact absurd hm (by simp [RcMode.to_writer])
    | ok b3 =>
      rw [hm] at h
      try dsimp only [writeI16Bytes, writeU8Bytes, writeI8Bytes] at h
      injection h with h
      subst h
      have h1 := readI16LE_bytes min_a hmin
      have h2 := readI16LE_bytes max_a hmax
      have h3 := rcMode_rt mode b3
      have h6 := readI8_bytes follow hfollow
      simp [RcStatus.from_reader, RcStatus.readFields, readU8, hval,
        h1, h2, h6, h3 _ hm]

-- Element round trips in `∀ rest` form, for use by the array lemma.

theorem readU8_writeU8 (a : Nat) (bs rest : List Nat)
    (h : writeU8Bytes a = .ok bs) : readU8 (bs ++ rest) = (.ok a, rest) := by
  injection h with h
  subst h
  rfl

theorem readI8_writeI8 (a : Int) (bs rest : List Nat) (hwf : wfI8 a)
    (h : writeI8Bytes a = .ok bs) : readI8 (bs ++ rest) = (.ok a, rest) := by
  injection h with h
  subst h
  exact readI8_bytes a hwf rest

theorem readU16_writeU16 (a : Nat) (bs rest : List Nat) (hwf : wfU16 a)
    (h : writeU16Bytes a = .ok bs) : readU16LE (bs ++ rest) = (.ok a, rest) := by
  injection h with h
  subst h
  exact readU16LE_bytes a hwf rest

/-- `BoardInfo` (`CMD_BOARD_INFO`, id 86; no range attributes). -/
structure BoardInfo where
  board_ver : Nat
  firmware_ver : Nat
  state_flags1 : BoardInfoStateFlags
  board_features : BoardInfoFeatures
  connection_flag : BoardInfoConnectionFlags
  frw_extra_id : Nat
  _reserved : List Nat
deriving DecidableEq, Repr

/-- The value domain of a `BoardInfo`. -/
def BoardInfo.wf (v : BoardInfo) : Prop :=
  wfU8 v.board_ver ∧ wfU16 v.firmware_ver ∧ BoardInfoStateFlags.wf v.state_flags1 ∧
  BoardInfoFeatures.wf v.board_features ∧ BoardInfoConnectionFlags.wf v.connection_flag ∧
  wfU64 v.frw_extra_id ∧ v._reserved.length = 7 ∧ ∀ b ∈ v._reserved, b < 256

/-- Generated `BoardInfo::validate` (no `#[range]` attributes: no checks). -/
def BoardInfo.validate (_ : BoardInfo) : Except RErr Unit := .ok ()

/-- The field-filling phase of the generated `BoardInfo::from_reader`. -/
def BoardInfo.readFields (s : List Nat) : Except RErr BoardInfo × List Nat :=
  match readU8 s with
  | (.error e, s') => (.error e, s')
  | (.ok board_ver, s1) =>
  match readU16LE s1 with
  | (.error e, s') => (.error e, s')
  | (.ok firmware_ver, s2) =>
  match BoardInfoStateFlags.from_reader s2 with
  | (.error e, s') => (.error e, s')
  | (.ok state_flags1, s3) =>
  match BoardInfoFeatures.from_reader s3 with
  | (.error e, s') => (.error e, s')
  | (.ok board_features, s4) =>
  match BoardInfoConnectionFlags.from_reader s4 with
  | (.error e, s') => (.error e, s')
  | (.ok connection_flag, s5) =>
  match readU64LE s5 with
  | (.error e, s') => (.error e, s')
  | (.ok frw_extra_id, s6) =>
  match readN readU8 7 s6 with
  | (.error e, s') => (.error e, s')
  | (.ok reserved, s7) =>
    (.ok ⟨board_ver, firmware_ver, state_flags1, board_features, connection_flag,
          frw_extra_id, reserved⟩, s7)

/-- Generated `BoardInfo::from_reader`. -/
def BoardInfo.from_reader (s : List Nat) : Except RErr BoardInfo × List Nat :=
  match BoardInfo.readFields s with
  | (.error e, s') => (.error e, s')
  | (.ok v, s') =>
    match BoardInfo.validate v with
    | .error e => (.error e, s')
    | .ok _ => (.ok v, s')

/-- Generated `BoardInfo::to_writer`. -/
def BoardInfo.to_writer (v : BoardInfo) : Except RErr (List Nat) :=
  match BoardInfo.validate v with
  | .error e => .error e
  | .ok _ =>
  match writeU8Bytes v.board_ver with
  | .error e => .error e
  | .ok b1 =>
  match writeU16Bytes v.firmware_ver with
  | .error e => .error e
  | .ok b2 =>
  match BoardInfoStateFlags.to_writer v.state_flags1 with
  | .error e => .error e
  | .ok b3 =>
  match BoardInfoFeatures.to_writer v.board_features with
  | .error e => .error e
  | .ok b4 =>
  match BoardInfoConnectionFlags.to_writer v.connection_flag with
  | .error e => .error e
  | .ok b5 =>
  match writeU64Bytes v.frw_extra_id with
  | .error e => .error e
  | .ok b6 =>
  match writeN writeU8Bytes v._reserved with
  | .error e => .error e
  | .ok b7 => .ok (b1 ++ (b2 ++ (b3 ++ (b4 ++ (b5 ++ (b6 ++ b7))))))

theorem boardInfo_rt (v : BoardInfo) (bs rest : List Nat)
    (hwf : BoardInfo.wf v) (h : BoardInfo.to_writer v = .ok bs) :
    BoardInfo.from_reader (bs ++ rest) = (.ok v, rest) := by
  obtain ⟨bv, fw, sf, bf, cf, frw, res⟩ := v
  obtain ⟨hbv, hfw, hsf, hbf, hcf, hfrw, hlen, hres⟩ := hwf
  unfold BoardInfo.to_writer at h
  cases hw7 : writeN writeU8Bytes res with
  | error e =>
    rw [hw7] at h
    dsimp only [BoardInfo.validate, writeU8Bytes, writeU16Bytes,
      BoardInfoStateFlags.to_writer, BoardInfoFeatures.to_writer,
      BoardInfoConnectionFlags.to_writer, writeU64Bytes] at h
    exact absurd h (by simp)
  | ok b7 =>
    rw [hw7] at h
    dsimp only [BoardInfo.validate, writeU8Bytes, writeU16Bytes,
      BoardInfoStateFlags.to_writer, BoardInfoFeatures.to_writer,
      BoardInfoConnectionFlags.to_writer, writeU64Bytes] at h
    injection h with h
    subst h
    have h2 : ∀ r, readU16LE (bytesU16LE fw ++ r) = (.ok fw, r) :=
      fun r => readU16LE_bytes fw hfw r
    have h3 : ∀ r, BoardInfoStateFlags.from_reader (sf.bits :: r) = (.ok sf, r) :=
      fun r => by
        have := stateFlags_rt sf [sf.bits] r hsf rfl
        simpa using this
    have h4 : ∀ r, BoardInfoFeatures.from_reader (bytesU16LE bf.bits ++ r) = (.ok bf, r) :=
      fun r => features_rt bf (bytesU16LE bf.bits) r hbf rfl
    have h5 : ∀ r, BoardInfoConnectionFlags.from_reader (cf.bits :: r) = (.ok cf, r) :=
      fun r => by
        have := connectionFlags_rt cf [cf.bits] r hcf rfl
        simpa using this
    have h6 : ∀ r, readU64LE (bytesU64LE frw ++ r) = (.ok frw, r) :=
      fun r => readU64LE_bytes frw hfrw r
    have h7 : ∀ r, readN readU8 7 (b7 ++ r) = (.ok res, r) := fun r => by
      have := readN_writeN readU8 writeU8Bytes (fun _ => True)
        (fun a bsx rx _ hx => readU8_writeU8 a bsx rx hx) res b7 r
        (fun a _ => trivial) hw7
      rwa [hlen] at this
    simp [BoardInfo.from_reader, BoardInfo.readFields, BoardInfo.validate,
      readU8, h2, h3, h4, h5, h6, h7]

/-- `BoardInfo3` (`CMD_BOARD_INFO_3`, id 20; `profile_set_cur` carries
`#[range(1..=6)]`). -/
structure BoardInfo3 where
  device_id : List Nat
  mcu_id : List Nat
  eeprom_size : Nat
  script_slot_size : List Nat
  profile_set_slots : Nat
  profile_set_cur : Nat
  _reserved : List Nat
deriving DecidableEq, Repr

/-- The value domain of a `BoardInfo3`. -/
def BoardInfo3.wf (v : BoardInfo3) : Prop :=
  v.device_id.length = 9 ∧ (∀ b ∈ v.device_id, b < 256) ∧
  v.mcu_id.length = 12 ∧ (∀ b ∈ v.mcu_id, b < 256) ∧
  wfU64 v.eeprom_size ∧
  v.script_slot_size.length = 5 ∧ (∀ b ∈ v.script_slot_size, b < 65536) ∧
  wfU8 v.profile_set_slots ∧ wfU8 v.profile_set_cur ∧
  v._reserved.length = 32 ∧ (∀ b ∈ v._reserved, b < 256)

/-- Generated `BoardInfo3::validate`: the single `1..=6` range check on
`profile_set_cur`. -/
def BoardInfo3.validate (v : BoardInfo3) : Except RErr Unit :=
  if ¬(1 ≤ v.profile_set_cur ∧ v.profile_set_cur ≤ 6) then
    .error (.invalidData "data outside of valid range")
  else .ok ()

/-- The field-filling phase of the generated `BoardInfo3::from_reader`. -/
def BoardInfo3.readFields (s : List Nat) : Except RErr BoardInfo3 × List Nat :=
  match readN readU8 9 s with
  | (.error e, s') => (.error e, s')
  | (.ok device_id, s1) =>
  match readN readU8 12 s1 with
  | (.error e, s') => (.error e, s')
  | (.ok mcu_id, s2) =>
  match readU64LE s2 with
  | (.error e, s') => (.error e, s')
  | (.ok eeprom_size, s3) =>
  match readN readU16LE 5 s3 with
  | (.error e, s') => (.error e, s')
  | (.ok script_slot_size, s4) =>
  match readU8 s4 with
  | (.error e, s') => (.error e, s')
  | (.ok profile_set_slots, s5) =>
  match readU8 s5 with
  | (.error e, s') => (.error e, s')
  | (.ok profile_set_cur, s6) =>
  match readN readU8 32 s6 with
  | (.error e, s') => (.error e, s')
  | (.ok reserved, s7) =>
    (.ok ⟨device_id, mcu_id, eeprom_size, script_slot_size, profile_set_slots,
          profile_set_cur, reserved⟩, s7)

/-- Generated `BoardInfo3::from_reader`: fill all fields, then validate. -/
def BoardInfo3.from_reader (s : List Nat) : Except RErr BoardInfo3 × List Nat :=
  match BoardInfo3.readFields s with
  | (.error e, s') => (.error e, s')
  | (.ok v, s') =>
    match BoardInfo3.validate v with
    | .error e => (.error e, s')
    | .ok _ => (.ok v, s')

/-- Generated `BoardInfo3::to_writer`. -/
def BoardInfo3.to_writer (v : BoardInfo3) : Except RErr (List Nat) :=
  match BoardInfo3.validate v with
  | .error e => .error e
  | .ok _ =>
  match writeN writeU8Bytes v.device_id with
  | .error e => .error e
  | .ok b1 =>
  match writeN writeU8Bytes v.mcu_id with
  | .error e => .error e
  | .ok b2 =>
  match writeU64Bytes v.eeprom_size with
  | .error e => .error e
  | .ok b3 =>
  match writeN writeU16Bytes v.script_slot_size with
  | .error e => .error e
  | .ok b4 =>
  match writeU8Bytes v.profile_set_slots with
  | .error e => .error e
  | .ok b5 =>
  match writeU8Bytes v.profile_set_cur with
  | .error e => .error e
  | .ok b6 =>
  match writeN writeU8Bytes v._reserved with
  | .error e => .error e
  | .ok b7 => .ok (b1 ++ (b2 ++ (b3 ++ (b4 ++ (b5 ++ (b6 ++ b7))))))

theorem boardInfo3_rt (v : BoardInfo3) (bs rest : List Nat)
    (hwf : BoardInfo3.wf v) (h : BoardInfo3.to_writer v = .ok bs) :
    BoardInfo3.from_reader (bs ++ rest) = (.ok v, rest) := by
  obtain ⟨dev, mcu, eep, slots, pslots, pcur, res⟩ := v
  obtain ⟨hdl, hdb, hml, hmb, heep, hsl, hsb, hps, hpc, hrl, hrb⟩ := hwf
  unfold BoardInfo3.to_writer at h
  cases hval : BoardInfo3.validate ⟨dev, mcu, eep, slots, pslots, pcur, res⟩ with
  | error e => rw [hval] at h; exact absurd h (by simp)
  | ok u =>
    rw [hval] at h
    cases hw1 : writeN writeU8Bytes dev with
    | error e => rw [hw1] at h; exact absurd h (by simp)
    | ok b1 =>
      rw [hw1] at h
      cases hw2 : writeN writeU8Bytes mcu with
      | error e => rw [hw2] at h; exact absurd h (by simp)
      | ok b2 =>
        rw [hw2] at h
        cases hw4 : writeN writeU16Bytes slots with
        | error e =>
          rw [hw4] at h
          dsimp only [writeU64Bytes] at h
          exact absurd h (by simp)
        | ok b4 =>
          rw [hw4] at h
          cases hw7 : writeN writeU8Bytes res with
          | error e =>
            rw [hw7] at h
            dsimp only [writeU64Bytes, writeU8Bytes] at h
            exact absurd h (by simp)
          | ok b7 =>
            rw [hw7] at h
            dsimp only [writeU64Bytes, writeU8Bytes] at h
            injection h with h
            subst h
            have hu8rt : ∀ (a : Nat) (bsx rx : List Nat), True → writeU8Bytes a = .ok bsx →
                readU8 (bsx ++ rx) = (.ok a, rx) :=
              fun a bsx rx _ hx => readU8_writeU8 a bsx rx hx
            have h1 : ∀ r, readN readU8 9 (b1 ++ r) = (.ok dev, r) := fun r => by
              have := readN_writeN readU8 writeU8Bytes (fun _ => True) hu8rt dev b1 r
                (fun a _ => trivial) hw1
              rwa [hdl] at this
            have h2 : ∀ r, readN readU8 12 (b2 ++ r) = (.ok mcu, r) := fun r => by
              have := readN_writeN readU8 writeU8Bytes (fun _ => True) hu8rt mcu b2 r
                (fun a _ => trivial) hw2
              rwa [hml] at this
            have h3 : ∀ r, readU64LE (bytesU64LE eep ++ r) = (.ok eep, r) :=
              fun r => readU64LE_bytes eep heep r
            have h4 : ∀ r, readN readU16LE 5 (b4 ++ r) = (.ok slots, r) := fun r => by
              have := readN_writeN readU16LE writeU16Bytes wfU16
                (fun a bsx rx hx hw => readU16_writeU16 a bsx rx hx hw) slots b4 r hsb hw4
              rwa [hsl] at this
            have h7 : ∀ r, readN readU8 32 (b7 ++ r) = (.ok res, r) := fun r => by
              have := readN_writeN readU8 writeU8Bytes (fun _ => True) hu8rt res b7 r
                (fun a _ => trivial) hw7
              rwa [hrl] at this
            simp [BoardInfo3.from_reader, BoardInfo3.readFields, readU8, hval,
              h1, h2, h3, h4, h7]

/-- `ReadParams3` (`CMD_READ_PARAMS_3`, id 21; `profile_id` carries
`#[range(0..=4, 255..=255)]`, `acc_limiter_all` and `gyro_thrust` carry
`#[range(0..=255)]`). -/
structure ReadParams3 where
  profile_id : Nat
  axis : List MotorStatus
  acc_limiter_all : Nat
  ext_fc_gain : List Int
  rc_status : List RcStatus
  gyro_thrust : Nat
  use_model : Bool
  pwm_freq : PWMFrequency
  serial_spped : BaudRate
deriving DecidableEq, Repr

/-- The value domain of a `ReadParams3`. -/
def ReadParams3.wf (v : ReadParams3) : Prop :=
  wfU8 v.profile_id ∧
  v.axis.length = 3 ∧ (∀ a ∈ v.axis, MotorStatus.wf a) ∧
  wfU8 v.acc_limiter_all ∧
  v.ext_fc_gain.length = 2 ∧ (∀ a ∈ v.ext_fc_gain, wfI8 a) ∧
  v.rc_status.length = 3 ∧ (∀ a ∈ v.rc_status, RcStatus.wf a) ∧
  wfU8 v.gyro_thrust

/-- Generated `ReadParams3::validate`: the two-range disjunction on
`profile_id` (`if` with the negated `contains` checks conjoined by `&&`),
then the single-range checks on `acc_limiter_all` and `gyro_thrust`. -/
def ReadParams3.validate (v : ReadParams3) : Except RErr Unit :=
  if ¬(0 ≤ v.profile_id ∧ v.profile_id ≤ 4) ∧ ¬(255 ≤ v.profile_id ∧ v.profile_id ≤ 255) then
    .error (.invalidData "data outside of valid range")
  else if ¬(0 ≤ v.acc_limiter_all ∧ v.acc_limiter_all ≤ 255) then
    .error (.invalidData "data outside of valid range")
  else if ¬(0 ≤ v.gyro_thrust ∧ v.gyro_thrust ≤ 255) then
    .error (.invalidData "data outside of valid range")
  else .ok ()

/-- The field-filling phase of the generated `ReadParams3::from_reader`. -/
def ReadParams3.readFields (s : List Nat) : Except RErr ReadParams3 × List Nat :=
  match readU8 s with
  | (.error e, s') => (.error e, s')
  | (.ok profile_id, s1) =>
  match readN MotorStatus.from_reader 3 s1 with
  | (.error e, s') => (.error e, s')
  | (.ok axis, s2) =>
  match readU8 s2 with
  | (.error e, s') => (.error e, s')
  | (.ok acc_limiter_all, s3) =>
  match readN readI8 2 s3 with
  | (.error e, s') => (.error e, s')
  | (.ok ext_fc_gain, s4) =>
  match readN RcStatus.from_reader 3 s4 with
  | (.error e, s') => (.error e, s')
  | (.ok rc_status, s5) =>
  match readU8 s5 with
  | (.error e, s') => (.error e, s')
  | (.ok gyro_thrust, s6) =>
  match readBool s6 with
  | (.error e, s') => (.error e, s')
  | (.ok use_model, s7) =>
  match PWMFrequency.from_reader s7 with
  | (.error e, s') => (.error e, s')
  | (.ok pwm_freq, s8) =>
  match BaudRate.from_reader s8 with
  | (.error e, s') => (.error e, s')
  | (.ok serial_spped, s9) =>
    (.ok ⟨profile_id, axis, acc_limiter_all, ext_fc_gain, rc_status, gyro_thrust,
          use_model, pwm_freq, serial_spped⟩, s9)

/-- Generated `ReadParams3::from_reader`: fill all fields, then validate. -/
def ReadParams3.from_reader (s : List Nat) : Except RErr ReadParams3 × List Nat :=
  match ReadParams3.readFields s with
  | (.error e, s') => (.error e, s')
  | (.ok v, s') =>
    match ReadParams3.validate v with
    | .error e => (.error e, s')
    | .ok _ => (.ok v, s')

/-- Generated `ReadParams3::to_writer`. -/
def ReadParams3.to_writer (v : ReadParams3) : Except RErr (List Nat) :=
  match ReadParams3.validate v with
  | .error e => .error e
  | .ok _ =>
  match writeU8Bytes v.profile_id with
  | .error e => .error e
  | .ok b1 =>
  match writeN MotorStatus.to_writer v.axis with
  | .error e => .error e
  | .ok b2 =>
  match writeU8Bytes v.acc_limiter_all with
  | .error e => .error e
  | .ok b3 =>
  match writeN writeI8Bytes v.ext_fc_gain with
  | .error e => .error e
  | .ok b4 =>
  match writeN RcStatus.to_writer v.rc_status with
  | .error e => .error e
  | .ok b5 =>
  match writeU8Bytes v.gyro_thrust with
  | .error e => .error e
  | .ok b6 =>
  match writeBool v.use_model with
  | .error e => .error e
  | .ok b7 =>
  match PWMFrequency.to_writer v.pwm_freq with
  | .error e => .error e
  | .ok b8 =>
  match BaudRate.to_writer v.serial_spped with
  | .error e => .error e
  | .ok b9 => .ok (b1 ++ (b2 ++ (b3 ++ (b4 ++ (b5 ++ (b6 ++ (b7 ++ (b8 ++ b9))))))))

theorem readParams3_rt (v : ReadParams3) (bs rest : List Nat)
    (hwf : ReadParams3.wf v) (h : ReadParams3.to_writer v = .ok bs) :
    ReadParams3.from_reader (bs ++ rest) = (.ok v, rest) := by
  obtain ⟨pid, axis, acc, ext, rcs, gyro, um, pwm, baud⟩ := v
  obtain ⟨hpid, hal, hab, hacc, hel, heb, hrl, hrb, hgy⟩ := hwf
  unfold ReadParams3.to_writer at h
  cases hval : ReadParams3.validate ⟨pid, axis, acc, ext, rcs, gyro, um, pwm, baud⟩ with
  | error e => rw [hval] at h; exact absurd h (by simp)
  | ok u =>
    rw [hval] at h
    cases hw2 : writeN MotorStatus.to_writer axis with
    | error e => rw [hw2] at h; exact absurd h (by simp [writeU8Bytes])
    | ok b2 =>
      rw [hw2] at h
      cases hw4 : writeN writeI8Bytes ext with
      | error e =>
        rw [hw4] at h
        exact absurd h (by simp [writeU8Bytes])
      | ok b4 =>
        rw [hw4] at h
        cases hw5 : writeN RcStatus.to_writer rcs with
        | error e =>
          rw [hw5] at h
          exact absurd h (by simp [writeU8Bytes])
        | ok b5 =>
          rw [hw5] at h
          cases hw7 : writeBool um with
          | error e => cases um <;> exact absurd hw7 (by simp [writeBool])
          | ok b7 =>
            rw [hw7] at h
            cases hw8 : PWMFrequency.to_writer pwm with
            | error e => cases pwm <;> exact absurd hw8 (by simp [PWMFrequency.to_writer])
            | ok b8 =>
              rw [hw8] at h
              cases hw9 : BaudRate.to_writer baud with
              | error e => cases baud <;> exact absurd hw9 (by simp [BaudRate.to_writer])
              | ok b9 =>
                rw [hw9] at h
                dsimp only [writeU8Bytes] at h
                injection h with h
                subst h
                have h2 : ∀ r, readN MotorStatus.from_reader 3 (b2 ++ r) = (.ok axis, r) :=
                  fun r => by
                    have := readN_writeN MotorStatus.from_reader MotorStatus.to_writer
                      MotorStatus.wf
                      (fun a bsx rx hx hw => motorStatus_rt a bsx rx hx hw) axis b2 r hab hw2
                    rwa [hal] at this
                have h4 : ∀ r, readN readI8 2 (b4 ++ r) = (.ok ext, r) := fun r => by
                  have := readN_writeN readI8 writeI8Bytes wfI8
                    (fun a bsx rx hx hw => readI8_writeI8 a bsx rx hx hw) ext b4 r heb hw4
                  rwa [hel] at this
                have h5 : ∀ r, readN RcStatus.from_reader 3 (b5 ++ r) = (.ok rcs, r) :=
                  fun r => by
                    have := readN_writeN RcStatus.from_reader RcStatus.to_writer RcStatus.wf
                      (fun a bsx rx hx hw => rcStatus_rt a bsx rx hx hw) rcs b5 r hrb hw5
                    rwa [hrl] at this
                have h7 : ∀ r, readBool (b7 ++ r) = (.ok um, r) :=
                  fun r => readBool_writeBool um b7 r hw7
                have h8 : ∀ r, PWMFrequency.from_reader (b8 ++ r) = (.ok pwm, r) :=
                  fun r => pwmFrequency_rt pwm b8 r hw8
                have h9 : ∀ r, BaudRate.from_reader (b9 ++ r) = (.ok baud, r) :=
                  fun r => baudRate_rt baud b9 r hw9
                simp [ReadParams3.from_reader, ReadParams3.readFields, readU8, hval,
                  h2, h4, h5, h7, h8, h9]

/-- C8: for every record and tagged-union codec generated by
`derive(Transmit)` (both command records, the two plain records, and the two
enums), a value inside its Rust type domain whose encode succeeds — encoding
validates first, so every encoded value passed validation — decodes back to
itself, leaving trailing input untouched. -/
theorem payload_roundtrip :
    (∀ (v : BoardInfo) (bs rest : List Nat), BoardInfo.wf v →
      BoardInfo.to_writer v = .ok bs →
      BoardInfo.from_reader (bs ++ rest) = (.ok v, rest)) ∧
    (∀ (v : BoardInfo3) (bs rest : List Nat), BoardInfo3.wf v →
      BoardInfo3.to_writer v = .ok bs →
      BoardInfo3.from_reader (bs ++ rest) = (.ok v, rest)) ∧
    (∀ (v : MotorStatus) (bs rest : List Nat), MotorStatus.wf v →
      MotorStatus.to_writer v = .ok bs →
      MotorStatus.from_reader (bs ++ rest) = (.ok v, rest)) ∧
    (∀ (v : RcStatus) (bs rest : List Nat), RcStatus.wf v →
      RcStatus.to_writer v = .ok bs →
      RcStatus.from_reader (bs ++ rest) = (.ok v, rest)) ∧
    (∀ (v : ReadParams3) (bs rest : List Nat), ReadParams3.wf v →
      ReadParams3.to_writer v = .ok bs →
      ReadParams3.from_reader (bs ++ rest) = (.ok v, rest)) ∧
    (∀ (v : PWMFrequency) (bs rest : List Nat),
      PWMFrequency.to_writer v = .ok bs →
      PWMFrequency.from_reader (bs ++ rest) = (.ok v, rest)) ∧
    (∀ (v : BaudRate) (bs rest : List Nat),
      BaudRate.to_writer v = .ok bs →
      BaudRate.from_reader (bs ++ rest) = (.ok v, rest)) :=
  ⟨boardInfo_rt, boardInfo3_rt, motorStatus_rt, rcStatus_rt, readParams3_rt,
   pwmFrequency_rt, baudRate_rt⟩

/-- Witness for C8: the `MotorStatus` value `(1, 2, 3, 4, true, 5)` encodes
to `[1, 2, 3, 4, 1, 5]` and decodes back to itself. -/
theorem payload_roundtrip_witness :
    MotorStatus.wf ⟨1, 2, 3, 4, true, 5⟩ ∧
    MotorStatus.to_writer ⟨1, 2, 3, 4, true, 5⟩ = .ok [1, 2, 3, 4, 1, 5] ∧
    MotorStatus.from_reader [1, 2, 3, 4, 1, 5] = (.ok ⟨1, 2, 3, 4, true, 5⟩, []) := by
  have hwf : MotorStatus.wf ⟨1, 2, 3, 4, true, 5⟩ := by
    simp [MotorStatus.wf, wfU8]
  have henc : MotorStatus.to_writer ⟨1, 2, 3, 4, true, 5⟩ = .ok [1, 2, 3, 4, 1, 5] := by
    decide
  refine ⟨hwf, henc, ?_⟩
  have := payload_roundtrip.2.2.1 ⟨1, 2, 3, 4, true, 5⟩ [1, 2, 3, 4, 1, 5] [] hwf henc
  simpa using this

/-- A `ReadParams3` with the given profile id and every other field zeroed
(all zeroed fields are range-valid and encode to zero bytes). -/
def zeroParams (p : Nat) : ReadParams3 :=
  ⟨p, List.replicate 3 ⟨0, 0, 0, 0, false, 0⟩, 0, List.replicate 2 0,
   List.replicate 3 ⟨0, 0, ⟨.Angle, false⟩, 0, 0, 0⟩, 0, false, .Low, .Baud115200⟩

/-- C5: `ReadParams3.profile_id`, declared with ranges `0..=4` and
`255..=255`, passes validation exactly when it lies in one of the two ranges
(disjunction); validation runs automatically after decode (`from_reader`
fails on an out-of-range decoded value, e.g. 5 or 254) and before encode
(`to_writer` fails on an out-of-range value before writing anything). -/
theorem range_disjunction :
    (∀ v : ReadParams3, ReadParams3.wf v →
      (ReadParams3.validate v = .ok () ↔ v.profile_id ≤ 4 ∨ v.profile_id = 255)) ∧
    (∀ p, p ≤ 4 ∨ p = 255 →
      ReadParams3.from_reader (p :: List.replicate 49 0) = (.ok (zeroParams p), []) ∧
      ReadParams3.to_writer (zeroParams p) = .ok (p :: List.replicate 49 0)) ∧
    ReadParams3.from_reader (5 :: List.replicate 49 0) =
      (.error (.invalidData "data outside of valid range"), []) ∧
    ReadParams3.from_reader (254 :: List.replicate 49 0) =
      (.error (.invalidData "data outside of valid range"), []) ∧
    ReadParams3.to_writer (zeroParams 5) =
      .error (.invalidData "data outside of valid range") ∧
    ReadParams3.to_writer (zeroParams 254) =
      .error (.invalidData "data outside of valid range") := by
  refine ⟨?_, ?_, by decide, by decide, by decide, by decide⟩
  · intro v hwf
    obtain ⟨hpid, -, -, hacc, -, -, -, -, hgy⟩ := hwf
    unfold wfU8 at hpid hacc hgy
    unfold ReadParams3.validate
    by_cases hd : v.profile_id ≤ 4 ∨ v.profile_id = 255
    · rw [if_neg (by omega), if_neg (by omega), if_neg (by omega)]
      simp [hd]
    · rw [if_pos (by omega)]
      simp [hd]
  · intro p hp
    rcases hp with hp | hp
    · interval_cases p <;> exact ⟨by decide, by decide⟩
    · subst hp
      exact ⟨by decide, by decide⟩

/-- Witness for C5: the disjunction instance at `profile_id = 255`, plus the
concrete accept at 255 via the claim theorem. -/
theorem range_disjunction_witness :
    ((255 : Nat) ≤ 4 ∨ (255 : Nat) = 255) ∧
    ReadParams3.from_reader (255 :: List.replicate 49 0) = (.ok (zeroParams 255), []) := by
  refine ⟨by decide, ?_⟩
  exact (range_disjunction.2.1 255 (by decide)).1

-- Consumption of the one-byte decision codecs.

theorem rcMode_consumes (s : List Nat) (a : RcMode) (s' : List Nat)
    (h : RcMode.from_reader s = (.ok a, s')) : s.length = 1 + s'.length := by
  unfold RcMode.from_reader at h
  rcases hr : readU8 s with ⟨e | bits, rs⟩
  · rw [hr] at h; exact absurd h (by simp)
  · rw [hr] at h
    try dsimp only at h
    generalize bits &&& 3 = m at h
    match m, h with
    | 0, h =>
      injection h with h1 h2
      subst h2
      exact readU8_consumes s bits _ hr
    | 1, h =>
      injection h with h1 h2
      subst h2
      exact readU8_consumes s bits _ hr
    | n + 2, h => exact absurd h (by simp)

theorem pwmFrequency_consumes (s : List Nat) (a : PWMFrequency) (s' : List Nat)
    (h : PWMFrequency.from_reader s = (.ok a, s')) : s.length = 1 + s'.length := by
  unfold PWMFrequency.from_reader at h
  rcases hr : readU8 s with ⟨e | b, rs⟩
  · rw [hr] at h; exact absurd h (by simp)
  · rw [hr] at h
    try dsimp only at h
    match b, h with
    | 0, h => injection h with h1 h2; subst h2; exact readU8_consumes s 0 _ hr
    | 1, h => injection h with h1 h2; subst h2; exact readU8_consumes s 1 _ hr
    | 2, h => injection h with h1 h2; subst h2; exact readU8_consumes s 2 _ hr
    | n + 3, h => exact absurd h (by simp)

theorem baudRate_consumes (s : List Nat) (a : BaudRate) (s' : List Nat)
    (h : BaudRate.from_reader s = (.ok a, s')) : s.length = 1 + s'.length := by
  unfold BaudRate.from_reader at h
  rcases hr : readU8 s with ⟨e | b, rs⟩
  · rw [hr] at h; exact absurd h (by simp)
  · rw [hr] at h
    try dsimp only at h
    match b, h with
    | 0, h => injection h with h1 h2; subst h2; exact readU8_consumes s 0 _ hr
    | 1, h => injection h with h1 h2; subst h2; exact readU8_consumes s 1 _ hr
    | 2, h => injection h with h1 h2; subst h2; exact readU8_consumes s 2 _ hr
    | 3, h => injection h with h1 h2; subst h2; exact readU8_consumes s 3 _ hr
    | 4, h => injection h with h1 h2; subst h2; exact readU8_consumes s 4 _ hr
    | 5, h => injection h with h1 h2; subst h2; exact readU8_consumes s 5 _ hr
    | n + 6, h => exact absurd h (by simp)

-- Consumption of the record field-filling phases.

theorem motorStatus_readFields_consumes (s : List Nat) (a : MotorStatus) (s' : List Nat)
    (h : MotorStatus.readFields s = (.ok a, s')) : s.length = 6 + s'.length := by
  unfold MotorStatus.readFields at h
  rcases h1 : readU8 s with ⟨e | p, t1⟩
  · rw [h1] at h; exact absurd h (by simp)
  · rw [h1] at h
    try dsimp only at h
    rcases h2 : readU8 t1 with ⟨e | i, t2⟩
    · rw [h2] at h; exact absurd h (by simp)
    · rw [h2] at h
      try dsimp only at h
      rcases h3 : readU8 t2 with ⟨e | d, t3⟩
      · rw [h3] at h; exact absurd h (by simp)
      · rw [h3] at h
        try dsimp only at h
        rcases h4 : readU8 t3 with ⟨e | power, t4⟩
        · rw [h4] at h; exact absurd h (by simp)
        · rw [h4] at h
          try dsimp only at h
          rcases h5 : readBool t4 with ⟨e | invert, t5⟩
          · rw [h5] at h; exact absurd h (by simp)
          · rw [h5] at h
            try dsimp only at h
            rcases h6 : readU8 t5 with ⟨e | poles, t6⟩
            · rw [h6] at h; exact absurd h (by simp)
            · rw [h6] at h
              try dsimp only at h
              injection h with hA hB
              subst hB
              have c1 := readU8_consumes s p _ h1
              have c2 := readU8_consumes t1 i _ h2
              have c3 := readU8_consumes t2 d _ h3
              have c4 := readU8_consumes t3 power _ h4
              have c5 := readBool_consumes t4 invert _ h5
              have c6 := readU8_consumes t5 poles _ h6
              omega

theorem motorStatus_consumes (s : List Nat) (a : MotorStatus) (s' : List Nat)
    (h : MotorStatus.from_reader s = (.ok a, s')) : s.length = 6 + s'.length := by
  unfold MotorStatus.from_reader at h
  rcases hf : MotorStatus.readFields s with ⟨e | v, t⟩
  · rw [hf] at h; exact absurd h (by simp)
  · rw [hf] at h
    try dsimp only at h
    cases hv : MotorStatus.validate v with
    | error e => rw [hv] at h; exact absurd h (by simp)
    | ok u =>
      rw [hv] at h
      try dsimp only at h
      injection h with hA hB
      injection hA with hA
      subst hA
      subst hB
      exact motorStatus_readFields_consumes s _ _ hf

theorem rcStatus_readFields_consumes (s : List Nat) (a : RcStatus) (s' : List Nat)
    (h : RcStatus.readFields s = (.ok a, s')) : s.length = 8 + s'.length := by
  unfold RcStatus.readFields at h
  rcases h1 : readI16LE s with ⟨e | mina, t1⟩
  · rw [h1] at h; exact absurd h (by simp)
  · rw [h1] at h
    try dsimp only at h
    rcases h2 : readI16LE t1 with ⟨e | maxa, t2⟩
    · rw [h2] at h; exact absurd h (by simp)
    · rw [h2] at h
      try dsimp only at h
      rcases h3 : RcMode.from_reader t2 with ⟨e | mode, t3⟩
      · rw [h3] at h; exact absurd h (by simp)
      · rw [h3] at h
        try dsimp only at h
        rcases h4 : readU8 t3 with ⟨e | lpf, t4⟩
        · rw [h4] at h; exact absurd h (by simp)
        · rw [h4] at h
          try dsimp only at h
          rcases h5 : readU8 t4 with ⟨e | speed, t5⟩
          · rw [h5] at h; exact absurd h (by simp)
          · rw [h5] at h
            try dsimp only at h
            rcases h6 : readI8 t5 with ⟨e | follow, t6⟩
            · rw [h6] at h; exact absurd h (by simp)
            · rw [h6] at h
              try dsimp only at h
              injection h with hA hB
              subst hB
              have c1 := readI16LE_consumes s mina _ h1
              have c2 := readI16LE_consumes t1 maxa _ h2
              have c3 := rcMode_consumes t2 mode _ h3
              have c4 := readU8_consumes t3 lpf _ h4
              have c5 := readU8_consumes t4 speed _ h5
              have c6 := readI8_consumes t5 follow _ h6
              omega

theorem rcStatus_consumes (s : List Nat) (a : RcStatus) (s' : List Nat)
    (h : RcStatus.from_reader s = (.ok a, s')) : s.length = 8 + s'.length := by
  unfold RcStatus.from_reader at h
  rcases hf : RcStatus.readFields s with ⟨e | v, t⟩
  · rw [hf] at h; exact absurd h (by simp)
  · rw [hf] at h
    try dsimp only at h
    cases hv : RcStatus.validate v with
    | error e => rw [hv] at h; exact absurd h (by simp)
    | ok u =>
      rw [hv] at h
      try dsimp only at h
      injection h with hA hB
      injection hA with hA
      subst hA
      subst hB
      exact rcStatus_readFields_consumes s _ _ hf

theorem boardInfo3_readFields_consumes (s : List Nat) (a : BoardInfo3) (s' : List Nat)
    (h : BoardInfo3.readFields s = (.ok a, s')) : s.length = 73 + s'.length := by
  unfold BoardInfo3.readFields at h
  rcases h1 : readN readU8 9 s with ⟨e | dev, t1⟩
  · rw [h1] at h; exact absurd h (by simp)
  · rw [h1] at h
    try dsimp only at h
    rcases h2 : readN readU8 12 t1 with ⟨e | mcu, t2⟩
    · rw [h2] at h; exact absurd h (by simp)
    · rw [h2] at h
      try dsimp only at h
      rcases h3 : readU64LE t2 with ⟨e | eep, t3⟩
      · rw [h3] at h; exact absurd h (by simp)
      · rw [h3] at h
        try dsimp only at h
        rcases h4 : readN readU16LE 5 t3 with ⟨e | slots, t4⟩
        · rw [h4] at h; exact absurd h (by simp)
        · rw [h4] at h
          try dsimp only at h
          rcases h5 : readU8 t4 with ⟨e | pslots, t5⟩
          · rw [h5] at h; exact absurd h (by simp)
          · rw [h5] at h
            try dsimp only at h
            rcases h6 : readU8 t5 with ⟨e | pcur, t6⟩
            · rw [h6] at h; exact absurd h (by simp)
            · rw [h6] at h
              try dsimp only at h
              rcases h7 : readN readU8 32 t6 with ⟨e | res, t7⟩
              · rw [h7] at h; exact absurd h (by simp)
              · rw [h7] at h
                try dsimp only at h
                injection h with hA hB
                subst hB
                have c1 := readN_consumes readU8 1 readU8_consumes 9 s dev _ h1
                have c2 := readN_consumes readU8 1 readU8_consumes 12 t1 mcu _ h2
                have c3 := readU64LE_consumes t2 eep _ h3
                have c4 := readN_consumes readU16LE 2 readU16LE_consumes 5 t3 slots _ h4
                have c5 := readU8_consumes t4 pslots _ h5
                have c6 := readU8_consumes t5 pcur _ h6
                have c7 := readN_consumes readU8 1 readU8_consumes 32 t6 res _ h7
                omega

theorem readParams3_readFields_consumes (s : List Nat) (a : ReadParams3) (s' : List Nat)
    (h : ReadParams3.readFields s = (.ok a, s')) : s.length = 50 + s'.length := by
  unfold ReadParams3.readFields at h
  rcases h1 : readU8 s with ⟨e | pid, t1⟩
  · rw [h1] at h; exact absurd h (by simp)
  · rw [h1] at h
    try dsimp only at h
    rcases h2 : readN MotorStatus.from_reader 3 t1 with ⟨e | axis, t2⟩
    · rw [h2] at h; exact absurd h (by simp)
    · rw [h2] at h
      try dsimp only at h
      rcases h3 : readU8 t2 with ⟨e | acc, t3⟩
      · rw [h3] at h; exact absurd h (by simp)
      · rw [h3] at h
        try dsimp only at h
        rcases h4 : readN readI8 2 t3 with ⟨e | ext, t4⟩
        · rw [h4] at h; exact absurd h (by simp)
        · rw [h4] at h
          try dsimp only at h
          rcases h5 : readN RcStatus.from_reader 3 t4 with ⟨e | rcs, t5⟩
          · rw [h5] at h; exact absurd h (by simp)
          · rw [h5] at h
            try dsimp only at h
            rcases h6 : readU8 t5 with ⟨e | gyro, t6⟩
            · rw [h6] at h; exact absurd h (by simp)
            · rw [h6] at h
              try dsimp only at h
              rcases h7 : readBool t6 with ⟨e | um, t7⟩
              · rw [h7] at h; exact absurd h (by simp)
              · rw [h7] at h
                try dsimp only at h
                rcases h8 : PWMFrequency.from_reader t7 with ⟨e | pwm, t8⟩
                · rw [h8] at h; exact absurd h (by simp)
                · rw [h8] at h
                  try dsimp only at h
                  rcases h9 : BaudRate.from_reader t8 with ⟨e | baud, t9⟩
                  · rw [h9] at h; exact absurd h (by simp)
                  · rw [h9] at h
                    try dsimp only at h
                    injection h with hA hB
                    subst hB
                    have c1 := readU8_consumes s pid _ h1
                    have c2 := readN_consumes MotorStatus.from_reader 6
                      motorStatus_consumes 3 t1 axis _ h2
                    have c3 := readU8_consumes t2 acc _ h3
                    have c4 := readN_consumes readI8 1 readI8_consumes 2 t3 ext _ h4
                    have c5 := readN_consumes RcStatus.from_reader 8
                      rcStatus_consumes 3 t4 rcs _ h5
                    have c6 := readU8_consumes t5 gyro _ h6
                    have c7 := readBool_consumes t6 um _ h7
                    have c8 := pwmFrequency_consumes t7 pwm _ h8
                    have c9 := baudRate_consumes t8 baud _ h9
                    omega

-- Consumption of the bit-flag codecs, and of BoardInfo's field-filling
-- phase, completing the per-record coverage.

theorem stateFlags_consumes (s : List Nat) (a : BoardInfoStateFlags) (s' : List Nat)
    (h : BoardInfoStateFlags.from_reader s = (.ok a, s')) : s.length = 1 + s'.length := by
  unfold BoardInfoStateFlags.from_reader at h
  rcases hr : readU8 s with ⟨e | b, rs⟩
  · rw [hr] at h; exact absurd h (by simp)
  · rw [hr] at h
    try dsimp only at h
    split at h
    · injection h with h1 h2
      subst h2
      exact readU8_consumes s b _ hr
    · exact absurd h (by simp)

theorem features_consumes (s : List Nat) (a : BoardInfoFeatures) (s' : List Nat)
    (h : BoardInfoFeatures.from_reader s = (.ok a, s')) : s.length = 2 + s'.length := by
  unfold BoardInfoFeatures.from_reader at h
  rcases hr : readU16LE s with ⟨e | b, rs⟩
  · rw [hr] at h; exact absurd h (by simp)
  · rw [hr] at h
    try dsimp only at h
    split at h
    · injection h with h1 h2
      subst h2
      exact readU16LE_consumes s b _ hr
    · exact absurd h (by simp)

theorem connectionFlags_consumes (s : List Nat) (a : BoardInfoConnectionFlags)
    (s' : List Nat) (h : BoardInfoConnectionFlags.from_reader s = (.ok a, s')) :
    s.length = 1 + s'.length := by
  unfold BoardInfoConnectionFlags.from_reader at h
  rcases hr : readU8 s with ⟨e | b, rs⟩
  · rw [hr] at h; exact absurd h (by simp)
  · rw [hr] at h
    try dsimp only at h
    split at h
    · injection h with h1 h2
      subst h2
      exact readU8_consumes s b _ hr
    · exact absurd h (by simp)

theorem boardInfo_readFields_consumes (s : List Nat) (a : BoardInfo) (s' : List Nat)
    (h : BoardInfo.readFields s = (.ok a, s')) : s.length = 22 + s'.length := by
  unfold BoardInfo.readFields at h
  rcases h1 : readU8 s with ⟨e | bv, t1⟩
  · rw [h1] at h; exact absurd h (by simp)
  · rw [h1] at h
    try dsimp only at h
    rcases h2 : readU16LE t1 with ⟨e | fw, t2⟩
    · rw [h2] at h; exact absurd h (by simp)
    · rw [h2] at h
      try dsimp only at h
      rcases h3 : BoardInfoStateFlags.from_reader t2 with ⟨e | sf, t3⟩
      · rw [h3] at h; exact absurd h (by simp)
      · rw [h3] at h
        try dsimp only at h
        rcases h4 : BoardInfoFeatures.from_reader t3 with ⟨e | bf, t4⟩
        · rw [h4] at h; exact absurd h (by simp)
        · rw [h4] at h
          try dsimp only at h
          rcases h5 : BoardInfoConnectionFlags.from_reader t4 with ⟨e | cf, t5⟩
          · rw [h5] at h; exact absurd h (by simp)
          · rw [h5] at h
            try dsimp only at h
            rcases h6 : readU64LE t5 with ⟨e | frw, t6⟩
            · rw [h6] at h; exact absurd h (by simp)
            · rw [h6] at h
              try dsimp only at h
              rcases h7 : readN readU8 7 t6 with ⟨e | res, t7⟩
              · rw [h7] at h; exact absurd h (by simp)
              · rw [h7] at h
                try dsimp only at h
                injection h with hA hB
                subst hB
                have c1 := readU8_consumes s bv _ h1
                have c2 := readU16LE_consumes t1 fw _ h2
                have c3 := stateFlags_consumes t2 sf _ h3
                have c4 := features_consumes t3 bf _ h4
                have c5 := connectionFlags_consumes t4 cf _ h5
                have c6 := readU64LE_consumes t5 frw _ h6
                have c7 := readN_consumes readU8 1 readU8_consumes 7 t6 res _ h7
                omega

/-- C10: for every record codec generated by `derive(Transmit)` (all five
records), the generated `from_reader` reads every field before validating,
so when the field-filling phase succeeds and validation then fails,
`from_reader` surfaces the validation error with the reader already advanced
past the record's entire fixed encoded size (6 bytes for `MotorStatus`, 8
for `RcStatus`, 22 for `BoardInfo`, 73 for `BoardInfo3`, 50 for
`ReadParams3`) — the consumed input is not restored. -/
theorem validate_after_full_read :
    (∀ (input : List Nat) (v : MotorStatus) (rest : List Nat),
      MotorStatus.readFields input = (.ok v, rest) →
      input.length = 6 + rest.length ∧
      ∀ e, MotorStatus.validate v = .error e →
        MotorStatus.from_reader input = (.error e, rest)) ∧
    (∀ (input : List Nat) (v : RcStatus) (rest : List Nat),
      RcStatus.readFields input = (.ok v, rest) →
      input.length = 8 + rest.length ∧
      ∀ e, RcStatus.validate v = .error e →
        RcStatus.from_reader input = (.error e, rest)) ∧
    (∀ (input : List Nat) (v : BoardInfo) (rest : List Nat),
      BoardInfo.readFields input = (.ok v, rest) →
      input.length = 22 + rest.length ∧
      ∀ e, BoardInfo.validate v = .error e →
        BoardInfo.from_reader input = (.error e, rest)) ∧
    (∀ (input : List Nat) (v : BoardInfo3) (rest : List Nat),
      BoardInfo3.readFields input = (.ok v, rest) →
      input.length = 73 + rest.length ∧
      ∀ e, BoardInfo3.validate v = .error e →
        BoardInfo3.from_reader input = (.error e, rest)) ∧
    (∀ (input : List Nat) (v : ReadParams3) (rest : List Nat),
      ReadParams3.readFields input = (.ok v, rest) →
      input.length = 50 + rest.length ∧
      ∀ e, ReadParams3.validate v = .error e →
        ReadParams3.from_reader input = (.error e, rest)) := by
  refine ⟨?_, ?_, ?_, ?_, ?_⟩
  · intro input v rest hf
    refine ⟨motorStatus_readFields_consumes input v rest hf, ?_⟩
    intro e he
    simp [MotorStatus.from_reader, hf, he]
  · intro input v rest hf
    refine ⟨rcStatus_readFields_consumes input v rest hf, ?_⟩
    intro e he
    simp [RcStatus.from_reader, hf, he]
  · intro input v rest hf
    refine ⟨boardInfo_readFields_consumes input v rest hf, ?_⟩
    intro e he
    simp [BoardInfo.from_reader, hf, he]
  · intro input v rest hf
    refine ⟨boardInfo3_readFields_consumes input v rest hf, ?_⟩
    intro e he
    simp [BoardInfo3.from_reader, hf, he]
  · intro input v rest hf
    refine ⟨readParams3_readFields_consumes input v rest hf, ?_⟩
    intro e he
    simp [ReadParams3.from_reader, hf, he]

/-- Witness for C10: 73 zero bytes fill every `BoardInfo3` field
(`profile_set_cur = 0`, outside `1..=6`), the whole input is consumed, and
`from_reader` surfaces the range error with nothing left unread; likewise
the 8-byte `RcStatus` input whose sixth byte decodes `lpf = 16` (outside
`0..=15`) is consumed whole before the range error surfaces. -/
theorem validate_after_full_read_witness :
    BoardInfo3.readFields (List.replicate 73 0) =
      (.ok ⟨List.replicate 9 0, List.replicate 12 0, 0, List.replicate 5 0, 0, 0,
            List.replicate 32 0⟩, []) ∧
    (List.replicate 73 (0 : Nat)).length = 73 + ([] : List Nat).length ∧
    BoardInfo3.from_reader (List.replicate 73 0) =
      (.error (.invalidData "data outside of valid range"), []) ∧
    RcStatus.readFields [0, 0, 0, 0, 0, 16, 0, 0] =
      (.ok ⟨0, 0, ⟨.Angle, false⟩, 16, 0, 0⟩, []) ∧
    ([0, 0, 0, 0, 0, 16, 0, 0] : List Nat).length = 8 + ([] : List Nat).length ∧
    RcStatus.from_reader [0, 0, 0, 0, 0, 16, 0, 0] =
      (.error (.invalidData "data outside of valid range"), []) := by
  have hf : BoardInfo3.readFields (List.replicate 73 0) =
      (.ok ⟨List.replicate 9 0, List.replicate 12 0, 0, List.replicate 5 0, 0, 0,
            List.replicate 32 0⟩, []) := by decide
  have hr : RcStatus.readFields [0, 0, 0, 0, 0, 16, 0, 0] =
      (.ok ⟨0, 0, ⟨.Angle, false⟩, 16, 0, 0⟩, []) := by decide
  refine ⟨hf, ?_, ?_, hr, ?_, ?_⟩
  · exact (validate_after_full_read.2.2.2.1 _ _ _ hf).1
  · exact (validate_after_full_read.2.2.2.1 _ _ _ hf).2 _ (by decide)
  · exact (validate_after_full_read.2.1 _ _ _ hr).1
  · exact (validate_after_full_read.2.1 _ _ _ hr).2 _ (by decide)

end SimpleBGC
